import Mathlib

/-!
Shallow embedding of the 101week-contracts worker (src/worker/index.ts, two
historical versions), the migrate-base64-to-r2 worker version
(src/unnamed/part_007) and the batch-script retry combinator
(src/scripts/generate-pdfs.ts, src/unnamed/part_009).

Modelling conventions:
* JS strings are Lean `String`s; all operations are defined charwise on
  `String.data` (`List Char`).  Unicode-specific lowercasing/whitespace beyond
  the common ASCII set is not modelled.
* A parsed JSON request body (`await request.json()`) is modelled as a
  `Submission` record whose fields are `Option String` (absent, or a string
  value).  Non-string JSON field values and explicit `null`s are not modelled;
  the claims under study only concern absent/blank/string fields.
* The KV store is an association list `List (String × KVValue)`; a stored value
  is either `plain s` (text that is not valid JSON, e.g. an email-index value),
  `record r` (text parsing to a JSON object, modelled structurally), or
  `nonObject s` (valid JSON that is not an object, arrays included).
* The R2 blob store is an association list `List (String × R2Obj)` where an
  object is identified by the base64 payload it was decoded from.
* Handlers are pure functions threading the two stores and also returning the
  trace of mutating store operations they issued, in order.
-/

/-- ASCII whitespace as matched by JS `trim` and the regexp class of spaces
(Unicode space characters beyond NBSP elided). -/
def jsWhitespace (c : Char) : Bool :=
  c = ' ' || c = '\t' || c = '\n' || c = '\r' || c = '\x0b' || c = '\x0c' || c = ' '

/-- Model of `String.prototype.trim`: drop whitespace from both ends (charwise model). -/
def trimList (l : List Char) : List Char :=
  ((l.dropWhile jsWhitespace).reverse.dropWhile jsWhitespace).reverse

def jsTrim (s : String) : String := ⟨trimList s.data⟩

/-- One character of the `[^a-z0-9]` test used by `sanitize`. -/
def keepChar (c : Char) : Bool :=
  ('a' ≤ c && c ≤ 'z') || ('0' ≤ c && c ≤ '9')

/-- One replaced character of `.replace(/[^a-z0-9]/g, "_")`. -/
def sanitizeChar (c : Char) : Char := if keepChar c then c else '_'

/-- Embedding of `const sanitize = str => str.trim().toLowerCase().replace(/[^a-z0-9]/g, "_")`
(worker/index.ts lines 21-25; identical in all worker versions).
`toLowerCase` is modelled charwise by `Char.toLower` (ASCII-correct). -/
def sanitize (s : String) : String :=
  ⟨(trimList s.data).map (fun c => sanitizeChar (Char.toLower c))⟩

/-- Lexicographic `<` on char lists, as JS `<` compares strings. -/
def lexLt : List Char → List Char → Bool
  | [], [] => false
  | [], _ :: _ => true
  | _ :: _, [] => false
  | a :: as, b :: bs => if a < b then true else if b < a then false else lexLt as bs

/-- JS string comparison `a > b`. -/
def jsStrGt (a b : String) : Bool := lexLt b.data a.data

/-- Decision procedure for the email regexp `^[^\s@]+@[^\s@]+\.[^\s@]+$`:
the string must contain no whitespace, exactly one `@` which is neither first
nor last, and the part after the `@` must contain a `.` that is neither its
first nor its last character. -/
def emailRegexMatch (s : String) : Bool :=
  let l := s.data
  let before := l.takeWhile (fun c => c ≠ '@')
  let after := (l.dropWhile (fun c => c ≠ '@')).drop 1
  l.all (fun c => !jsWhitespace c) &&
  l.count '@' == 1 &&
  !before.isEmpty &&
  decide ('.' ∈ (after.drop 1).dropLast)

theorem dropWhile_length_le {α : Type} (p : α → Bool) (l : List α) :
    (l.dropWhile p).length ≤ l.length := by
  induction l with
  | nil => simp [List.dropWhile]
  | cons a t ih =>
    simp only [List.dropWhile]
    cases p a <;> simp <;> omega

/-- Words of a string: maximal runs of non-whitespace.  On an already-trimmed
string this matches `input.trim().split(/\s+/)` (for the empty string JS yields
`[""]` and this yields `[]`; both have length ≠ 2, the only use made of it). -/
def splitWords : List Char → List (List Char)
  | [] => []
  | c :: rest =>
    if jsWhitespace c then splitWords rest
    else (c :: rest.takeWhile (fun d => !jsWhitespace d)) ::
      splitWords (rest.dropWhile (fun d => !jsWhitespace d))
termination_by l => l.length
decreasing_by
  · simp only [List.length_cons]; omega
  · have h := dropWhile_length_le (fun d => !jsWhitespace d) rest
    simp only [List.length_cons]; omega

/-- Left-pad a decimal numeral with zeros to the given width. -/
def padNum (width n : Nat) : String :=
  let s := Nat.repr n
  ⟨List.replicate (width - s.data.length) '0' ++ s.data⟩

structure SimpleDate where
  year : Int
  month : Int
  day : Int
deriving DecidableEq

/-- Model of `new Date().toISOString().slice(0, 10)`: the date as `YYYY-MM-DD`.
Years are taken to be nonnegative four-digit values. -/
def isoDateStr (d : SimpleDate) : String :=
  padNum 4 d.year.toNat ++ "-" ++ padNum 2 d.month.toNat ++ "-" ++ padNum 2 d.day.toNat

def digitVal (c : Char) : Option Nat :=
  if '0' ≤ c ∧ c ≤ '9' then some (c.toNat - '0'.toNat) else none

/-- Parse of `new Date(dobString)` for ISO `YYYY-MM-DD` input; any other shape
(or out-of-range month/day) yields an Invalid Date, modelled as `none`. -/
def parseDate (s : String) : Option SimpleDate :=
  match s.data with
  | [y1, y2, y3, y4, '-', m1, m2, '-', d1, d2] =>
    match digitVal y1, digitVal y2, digitVal y3, digitVal y4,
          digitVal m1, digitVal m2, digitVal d1, digitVal d2 with
    | some a, some b, some c, some d, some e, some f, some g, some h =>
      let y := 1000 * a + 100 * b + 10 * c + d
      let mo := 10 * e + f
      let da := 10 * g + h
      if 1 ≤ mo ∧ mo ≤ 12 ∧ 1 ≤ da ∧ da ≤ 31 then
        some ⟨(y : Int), (mo : Int), (da : Int)⟩
      else none
    | _, _, _, _, _, _, _, _ => none
  | _ => none

/-- Age computation of handleFormPost (worker/index.ts lines 93-99): year
difference, decremented when the birthday has not yet occurred this year.
(`getMonth` is 0-based in JS on both sides, so differences agree.) -/
def computeAge (birth today : SimpleDate) : Int :=
  let age := today.year - birth.year
  let m := today.month - birth.month
  if m < 0 ∨ (m = 0 ∧ today.day < birth.day) then age - 1 else age

/-! ## The submission data model -/

structure Submission where
  preferredLanguage : Option String
  firstName : Option String
  lastName : Option String
  email : Option String
  phone : Option String
  languages : Option String
  program : Option String
  rsg1 : Option String
  emergencyName : Option String
  emergencyPhone : Option String
  dob : Option String
  fullNameParticipant : Option String
  signatureParticipant : Option String
  fullNameParent : Option String
  signatureParent : Option String
deriving DecidableEq

inductive FieldName
  | preferredLanguage | firstName | lastName | email | phone
  | languages | program | rsg1 | emergencyName | emergencyPhone
  | dob | fullNameParticipant | signatureParticipant
  | fullNameParent | signatureParent
deriving DecidableEq

def getField (s : Submission) : FieldName → Option String
  | .preferredLanguage => s.preferredLanguage
  | .firstName => s.firstName
  | .lastName => s.lastName
  | .email => s.email
  | .phone => s.phone
  | .languages => s.languages
  | .program => s.program
  | .rsg1 => s.rsg1
  | .emergencyName => s.emergencyName
  | .emergencyPhone => s.emergencyPhone
  | .dob => s.dob
  | .fullNameParticipant => s.fullNameParticipant
  | .signatureParticipant => s.signatureParticipant
  | .fullNameParent => s.fullNameParent
  | .signatureParent => s.signatureParent

def fieldNameStr : FieldName → String
  | .preferredLanguage => "preferredLanguage"
  | .firstName => "firstName"
  | .lastName => "lastName"
  | .email => "email"
  | .phone => "phone"
  | .languages => "languages"
  | .program => "program"
  | .rsg1 => "rsg1"
  | .emergencyName => "emergencyName"
  | .emergencyPhone => "emergencyPhone"
  | .dob => "dob"
  | .fullNameParticipant => "fullNameParticipant"
  | .signatureParticipant => "signatureParticipant"
  | .fullNameParent => "fullNameParent"
  | .signatureParent => "signatureParent"

/-- The `requiredFields` array (worker/index.ts lines 8-19). -/
def requiredFields : List FieldName :=
  [.preferredLanguage, .firstName, .lastName, .email, .phone,
   .languages, .program, .rsg1, .emergencyName, .emergencyPhone]

/-- The per-field test of the required-field loop:
`!submission[field] || (typeof submission[field] === "string" && submission[field].toString().trim() === "")`.
In the optional-string model: absent, empty, or whitespace-only. -/
def missingOrBlank : Option String → Bool
  | none => true
  | some s => s = "" || (trimList s.data).isEmpty

/-! ## Stored values and the two stores -/

/-- The `signaturePaths` object written into stored records; `none` models an
explicit `null` path (or an absent member). -/
structure SigPaths where
  participant : Option String
  parent : Option String
deriving DecidableEq

/-- A stored submission record: the scalar fields plus the optional
`signaturePaths` member. -/
structure RecordObj where
  sub : Submission
  sigPaths : Option SigPaths
deriving DecidableEq

/-- A KV value, carried together with its JSON parse outcome:
`plain s` is text that is not valid JSON (every email-index value, being of the
shape `name_name_digits`, is such a string); `record r` is text parsing to a
JSON object, modelled structurally; `nonObject s` is valid JSON that is not an
object (numbers, strings, arrays). -/
inductive KVValue
  | plain (s : String)
  | record (r : RecordObj)
  | nonObject (s : String)
deriving DecidableEq

def jsonEscape (s : String) : String :=
  ⟨s.data.foldr (fun c acc => if c = '"' ∨ c = '\\' then '\\' :: c :: acc else c :: acc) []⟩

def jsonStr (s : String) : String := "\"" ++ jsonEscape s ++ "\""

def jsonMember (name : String) : Option String → List String
  | none => []
  | some v => [jsonStr name ++ ":" ++ jsonStr v]

def jsonNullable (name : String) : Option String → String
  | none => jsonStr name ++ ":null"
  | some v => jsonStr name ++ ":" ++ jsonStr v

/-- Canonical `JSON.stringify` of a stored record (fixed member order). -/
def recordStringify (r : RecordObj) : String :=
  let s := r.sub
  let scalars :=
    jsonMember "preferredLanguage" s.preferredLanguage ++
    jsonMember "firstName" s.firstName ++
    jsonMember "lastName" s.lastName ++
    jsonMember "email" s.email ++
    jsonMember "phone" s.phone ++
    jsonMember "languages" s.languages ++
    jsonMember "program" s.program ++
    jsonMember "rsg1" s.rsg1 ++
    jsonMember "emergencyName" s.emergencyName ++
    jsonMember "emergencyPhone" s.emergencyPhone ++
    jsonMember "dob" s.dob ++
    jsonMember "fullNameParticipant" s.fullNameParticipant ++
    jsonMember "signatureParticipant" s.signatureParticipant ++
    jsonMember "fullNameParent" s.fullNameParent ++
    jsonMember "signatureParent" s.signatureParent
  let paths :=
    match r.sigPaths with
    | none => []
    | some p =>
      ["\"signaturePaths\":\x7b" ++
        String.intercalate ","
          [jsonNullable "signatureParticipant" p.participant,
           jsonNullable "signatureParent" p.parent] ++ "\x7d"]
  "\x7b" ++ String.intercalate "," (scalars ++ paths) ++ "\x7d"

/-- The raw text of a stored value, as seen when the code uses a fetched value
directly as a string (the email-index resolution does). -/
def KVValue.asString : KVValue → String
  | .plain s => s
  | .record r => recordStringify r
  | .nonObject s => s

/-- An R2 object, identified by the base64 payload it was decoded from (the
byte decoding itself carries no information the claims depend on). -/
structure R2Obj where
  b64 : String
deriving DecidableEq

abbrev KV : Type := List (String × KVValue)

abbrev R2 : Type := List (String × R2Obj)

def kvGet (kv : KV) (k : String) : Option KVValue :=
  (kv.find? (fun e => e.1 = k)).map (·.2)

def kvPutStore (kv : KV) (k : String) (v : KVValue) : KV :=
  if (kv.find? (fun e => e.1 = k)).isSome
  then kv.map (fun e => if e.1 = k then (k, v) else e)
  else kv ++ [(k, v)]

def kvDeleteStore (kv : KV) (k : String) : KV :=
  kv.filter (fun e => e.1 ≠ k)

def r2Get (r2 : R2) (p : String) : Option R2Obj :=
  (r2.find? (fun e => e.1 = p)).map (·.2)

def r2PutStore (r2 : R2) (p : String) (o : R2Obj) : R2 :=
  if (r2.find? (fun e => e.1 = p)).isSome
  then r2.map (fun e => if e.1 = p then (p, o) else e)
  else r2 ++ [(p, o)]

def r2DeleteStore (r2 : R2) (p : String) : R2 :=
  r2.filter (fun e => e.1 ≠ p)

/-- Keys of the store carrying the given string as a name prefix, in store
order (`KVNamespace.list({ prefix })`). -/
def kvKeysWith (kv : KV) (pre : String) : List String :=
  (kv.map (·.1)).filter (fun k => pre.data.isPrefixOf k.data)

/-- A mutating store operation, recorded in issue order. -/
inductive StoreOp
  | kvPut (k : String) (v : KVValue)
  | kvDelete (k : String)
  | r2Put (p : String) (o : R2Obj)
  | r2Delete (p : String)
deriving DecidableEq

/-! ## handleFormPost, primary version (worker/index.ts lines 60-225) -/

structure HttpResponse where
  status : Nat
  body : String
deriving DecidableEq

inductive FormPostResult
  | reject (status : Nat) (body : String)
  | accept (id : String)
deriving DecidableEq

structure HandlerOut where
  result : FormPostResult
  kv : KV
  r2 : R2
  ops : List StoreOp
deriving DecidableEq

/-- The required-field loop (lines 64-74): first required field that is falsy
or blank, if any. -/
def checkRequired (sub : Submission) : Option HttpResponse :=
  match requiredFields.find? (fun f => missingOrBlank (getField sub f)) with
  | some f => some ⟨400, "Missing required field: " ++ fieldNameStr f⟩
  | none => none

/-- The email-format check (lines 76-81). -/
def checkEmailFormat (sub : Submission) : Option HttpResponse :=
  match sub.email with
  | some e => if emailRegexMatch e then none else some ⟨400, "Invalid email format"⟩
  | none => none

/-- The future-date-of-birth check (lines 83-90): a truthy dob string
lexicographically above today's ISO date is rejected. -/
def checkFutureDob (sub : Submission) (today : SimpleDate) : Option HttpResponse :=
  match sub.dob with
  | some d =>
    if d ≠ "" ∧ jsStrGt d (isoDateStr today)
    then some ⟨400, "Date of birth cannot be in the future"⟩
    else none
  | none => none

/-- The `isAdult` flag (lines 91-101): true by default; with a truthy dob
string, true iff the computed age is at least 18 (an unparseable dob produces
NaN comparisons, hence false). -/
def isAdultCheck (sub : Submission) (today : SimpleDate) : Bool :=
  match sub.dob with
  | none => true
  | some d =>
    if d = "" then true
    else
      match parseDate d with
      | some birth => computeAge birth today ≥ 18
      | none => false

def participantFields : List FieldName := [.fullNameParticipant, .signatureParticipant]

def parentFields : List FieldName := [.fullNameParent, .signatureParent]

def findMissing (sub : Submission) (fields : List FieldName) : Option HttpResponse :=
  match fields.find? (fun f => missingOrBlank (getField sub f)) with
  | some f => some ⟨400, "Missing required field: " ++ fieldNameStr f⟩
  | none => none

/-- The age-conditional field checks (lines 102-134): adults need participant
name and signature, minors need parent name and signature. -/
def checkConditionalFields (sub : Submission) (today : SimpleDate) : Option HttpResponse :=
  if isAdultCheck sub today
  then findMissing sub participantFields
  else findMissing sub parentFields

/-- The validation pipeline of handleFormPost in source order. -/
def validateSubmission (sub : Submission) (today : SimpleDate) : Option HttpResponse :=
  match checkRequired sub with
  | some r => some r
  | none =>
    match checkEmailFormat sub with
    | some r => some r
    | none =>
      match checkFutureDob sub today with
      | some r => some r
      | none => checkConditionalFields sub today

def pngHeader : String := "data:image/png;base64,"

/-- Test `sig && typeof sig === "string" && sig.startsWith("data:image/png;base64,")`. -/
def isPngDataUrl : Option String → Bool
  | none => false
  | some s => s ≠ "" && pngHeader.data.isPrefixOf s.data

/-- The base64 payload after `replace(/^data:image\/png;base64,/, "")`. -/
def pngPayload (s : String) : String := ⟨s.data.drop pngHeader.data.length⟩

def MAX_IMAGE_SIZE : Nat := 1024 * 1024

/-- The size estimate test `(base64Data.length * 3) / 4 > MAX_IMAGE_SIZE`
(exact rational comparison, cleared of the denominator). -/
def oversize (payload : String) : Bool :=
  3 * payload.data.length > 4 * MAX_IMAGE_SIZE

/-- The persistence phase of handleFormPost (lines 136-220), reached when every
validation check passed: derive the keys, write the email index entry, strip
data-URL signatures into `signaturePaths`, write the record, then size-check
and upload each data-URL signature. -/
def persistSubmission (sub : Submission) (ts : Nat) (kv : KV) (r2 : R2) : HandlerOut :=
  let firstName := sanitize (sub.firstName.getD "")
  let lastName := sanitize (sub.lastName.getD "")
  let email := sanitize (sub.email.getD "")
  let kvKey := firstName ++ "_" ++ lastName ++ "_" ++ Nat.repr ts
  let emailIndexKey := "email_" ++ email ++ "_" ++ Nat.repr ts
  let kv1 := kvPutStore kv emailIndexKey (.plain kvKey)
  let ops1 := [StoreOp.kvPut emailIndexKey (.plain kvKey)]
  let partIsPng := isPngDataUrl sub.signatureParticipant
  let parentIsPng := isPngDataUrl sub.signatureParent
  let partPath : Option String := if partIsPng then some (kvKey ++ "_participant.png") else none
  let parentPath : Option String := if parentIsPng then some (kvKey ++ "_parent.png") else none
  let stored : RecordObj :=
    ⟨{ sub with
        signatureParticipant := if partIsPng then none else sub.signatureParticipant
        signatureParent := if parentIsPng then none else sub.signatureParent },
      some ⟨partPath, parentPath⟩⟩
  let kv2 := kvPutStore kv1 kvKey (.record stored)
  let ops2 := ops1 ++ [StoreOp.kvPut kvKey (.record stored)]
  match partPath with
  | some pp =>
    let payload := pngPayload (sub.signatureParticipant.getD "")
    if oversize payload then
      ⟨.reject 400 "Participant signature image too large", kv2, r2, ops2⟩
    else
      let r2a := r2PutStore r2 pp ⟨payload⟩
      let ops3 := ops2 ++ [StoreOp.r2Put pp ⟨payload⟩]
      match parentPath with
      | some qp =>
        let payload2 := pngPayload (sub.signatureParent.getD "")
        if oversize payload2 then
          ⟨.reject 400 "Parent signature image too large", kv2, r2a, ops3⟩
        else
          ⟨.accept kvKey, kv2, r2PutStore r2a qp ⟨payload2⟩,
            ops3 ++ [StoreOp.r2Put qp ⟨payload2⟩]⟩
      | none => ⟨.accept kvKey, kv2, r2a, ops3⟩
  | none =>
    match parentPath with
    | some qp =>
      let payload2 := pngPayload (sub.signatureParent.getD "")
      if oversize payload2 then
        ⟨.reject 400 "Parent signature image too large", kv2, r2, ops2⟩
      else
        ⟨.accept kvKey, kv2, r2PutStore r2 qp ⟨payload2⟩,
          ops2 ++ [StoreOp.r2Put qp ⟨payload2⟩]⟩
    | none => ⟨.accept kvKey, kv2, r2, ops2⟩

/-- handleFormPost, primary version: validate, then persist.  `today` stands
for `new Date()` and `ts` for `Date.now()` at request time. -/
def handleFormPost (sub : Submission) (today : SimpleDate) (ts : Nat)
    (kv : KV) (r2 : R2) : HandlerOut :=
  match validateSubmission sub today with
  | some resp => ⟨.reject resp.status resp.body, kv, r2, []⟩
  | none => persistSubmission sub ts kv r2

/-! ## handleFormPost, RSG variant (worker/index.ts lines 695-918) -/

def REQUIRE_PARTICIPANT_SIGNATURE_FOR_MINORS : Bool := true

def jpegHeader : String := "data:image/jpeg;base64,"

def ALLOWED_IMAGE_HEADERS : List String := [pngHeader, jpegHeader]

def RSG_OPT_IN : List String := ["ESS"]

/-- Test `sig && typeof sig === "string" && sig.startsWith("data:image/")`. -/
def isDataImage : Option String → Bool
  | none => false
  | some s => s ≠ "" && "data:image/".data.isPrefixOf s.data

/-- Some allowed data-URL header starts the string. -/
def hasAllowedHeader (s : String) : Bool :=
  ALLOWED_IMAGE_HEADERS.any (fun h => h.data.isPrefixOf s.data)

/-- A truthy string signature carrying an allowed image header. -/
def isAllowedImage : Option String → Bool
  | none => false
  | some s => s ≠ "" && hasAllowedHeader s

/-- The age-conditional check of the RSG variant (lines 737-769): because
`REQUIRE_PARTICIPANT_SIGNATURE_FOR_MINORS` is true, the participant branch is
taken for adults and minors alike. -/
def checkConditionalFieldsRSG (sub : Submission) (today : SimpleDate) : Option HttpResponse :=
  if isAdultCheck sub today ∨
      (¬ isAdultCheck sub today ∧ REQUIRE_PARTICIPANT_SIGNATURE_FOR_MINORS)
  then findMissing sub participantFields
  else findMissing sub parentFields

/-- The RSG opt-in check (lines 770-775). -/
def checkRsgOptIn (sub : Submission) : Option HttpResponse :=
  match sub.rsg1 with
  | none => some ⟨400, "Invalid or not opted-in RSG"⟩
  | some r =>
    if r = "" ∨ r ∉ RSG_OPT_IN
    then some ⟨400, "Invalid or not opted-in RSG"⟩
    else none

/-- Validation pipeline of the RSG variant, in source order. -/
def validateSubmissionRSG (sub : Submission) (today : SimpleDate) : Option HttpResponse :=
  match checkRequired sub with
  | some r => some r
  | none =>
    match checkEmailFormat sub with
    | some r => some r
    | none =>
      match checkFutureDob sub today with
      | some r => some r
      | none =>
        match checkConditionalFieldsRSG sub today with
        | some r => some r
        | none => checkRsgOptIn sub

/-- Extension choice `startsWith("data:image/png") ? "png" : "jpeg"`. -/
def extOf (s : String) : String :=
  if "data:image/png".data.isPrefixOf s.data then "png" else "jpeg"

/-- The base64 payload after dropping the allowed header found for the string
(`replace(prefix, "")` with the header at position 0). -/
def imagePayload (s : String) : String :=
  match ALLOWED_IMAGE_HEADERS.find? (fun h => h.data.isPrefixOf s.data) with
  | some h => ⟨s.data.drop h.data.length⟩
  | none => s

/-- The persistence phase of the RSG variant (lines 776-913): the email index
entry is written, then signature types are validated, the record is written,
and finally each allowed image is size-checked and uploaded. -/
def persistSubmissionRSG (sub : Submission) (ts : Nat) (kv : KV) (r2 : R2) : HandlerOut :=
  let rsg := sub.rsg1.getD ""
  let firstName := sanitize (sub.firstName.getD "")
  let lastName := sanitize (sub.lastName.getD "")
  let email := sanitize (sub.email.getD "")
  let kvKey := rsg ++ "_" ++ firstName ++ "_" ++ lastName ++ "_" ++ Nat.repr ts
  let emailIndexKey := rsg ++ "_email_" ++ email ++ "_" ++ Nat.repr ts
  let kv1 := kvPutStore kv emailIndexKey (.plain kvKey)
  let ops1 := [StoreOp.kvPut emailIndexKey (.plain kvKey)]
  if isDataImage sub.signatureParticipant ∧
      ¬ hasAllowedHeader (sub.signatureParticipant.getD "") then
    ⟨.reject 400 "Participant signature must be PNG or JPEG", kv1, r2, ops1⟩
  else if isDataImage sub.signatureParent ∧
      ¬ hasAllowedHeader (sub.signatureParent.getD "") then
    ⟨.reject 400 "Parent signature must be PNG or JPEG", kv1, r2, ops1⟩
  else
    let partIsImg := isAllowedImage sub.signatureParticipant
    let parentIsImg := isAllowedImage sub.signatureParent
    let partPath : Option String :=
      if partIsImg
      then some (rsg ++ "/" ++ firstName ++ "_" ++ lastName ++ "_" ++ Nat.repr ts ++
        "_participant." ++ extOf (sub.signatureParticipant.getD ""))
      else none
    let parentPath : Option String :=
      if parentIsImg
      then some (rsg ++ "/" ++ firstName ++ "_" ++ lastName ++ "_" ++ Nat.repr ts ++
        "_parent." ++ extOf (sub.signatureParent.getD ""))
      else none
    let stored : RecordObj :=
      ⟨{ sub with
          signatureParticipant := if partIsImg then none else sub.signatureParticipant
          signatureParent := if parentIsImg then none else sub.signatureParent },
        some ⟨partPath, parentPath⟩⟩
    let kv2 := kvPutStore kv1 kvKey (.record stored)
    let ops2 := ops1 ++ [StoreOp.kvPut kvKey (.record stored)]
    match partPath with
    | some pp =>
      let payload := imagePayload (sub.signatureParticipant.getD "")
      if oversize payload then
        ⟨.reject 400 "Participant signature image too large", kv2, r2, ops2⟩
      else
        let r2a := r2PutStore r2 pp ⟨payload⟩
        let ops3 := ops2 ++ [StoreOp.r2Put pp ⟨payload⟩]
        match parentPath with
        | some qp =>
          let payload2 := imagePayload (sub.signatureParent.getD "")
          if oversize payload2 then
            ⟨.reject 400 "Parent signature image too large", kv2, r2a, ops3⟩
          else
            ⟨.accept kvKey, kv2, r2PutStore r2a qp ⟨payload2⟩,
              ops3 ++ [StoreOp.r2Put qp ⟨payload2⟩]⟩
        | none => ⟨.accept kvKey, kv2, r2a, ops3⟩
    | none =>
      match parentPath with
      | some qp =>
        let payload2 := imagePayload (sub.signatureParent.getD "")
        if oversize payload2 then
          ⟨.reject 400 "Parent signature image too large", kv2, r2, ops2⟩
        else
          ⟨.accept kvKey, kv2, r2PutStore r2 qp ⟨payload2⟩,
            ops2 ++ [StoreOp.r2Put qp ⟨payload2⟩]⟩
      | none => ⟨.accept kvKey, kv2, r2, ops2⟩

/-- handleFormPost, RSG variant: validate, then persist. -/
def handleFormPostRSG (sub : Submission) (today : SimpleDate) (ts : Nat)
    (kv : KV) (r2 : R2) : HandlerOut :=
  match validateSubmissionRSG sub today with
  | some resp => ⟨.reject resp.status resp.body, kv, r2, []⟩
  | none => persistSubmissionRSG sub ts kv r2

/-! ## handleLookup, primary version (worker/index.ts lines 229-302) -/

def MAX_RESULTS : Nat := 50

/-- Embedding of `isValidLookupData` (lines 27-30): a JSON object carrying every required
field (non-objects and arrays are the `nonObject` constructor, handled at the
call sites). -/
def isValidLookupData (r : RecordObj) : Bool :=
  requiredFields.all (fun f => (getField r.sub f).isSome)

/-- Embedding of `fetchValidRecords` (lines 33-58): read each of the first `MAX_RESULTS`
keys and keep the values that parse to valid record objects. -/
def fetchValidRecords (keys : List String) (kv : KV) : List (String × RecordObj) :=
  (keys.take MAX_RESULTS).filterMap (fun k =>
    match kvGet kv k with
    | some (.record r) => if isValidLookupData r then some (k, r) else none
    | _ => none)

/-- The resolved main-record keys of the email branch: each index value (used
as a string) whose target key has a value. -/
def emailValidMainKeys (kv : KV) (pre : String) : List String :=
  (kvKeysWith kv pre).filterMap (fun ik =>
    match kvGet kv ik with
    | none => none
    | some v => if (kvGet kv v.asString).isSome then some v.asString else none)

/-- The orphaned index keys of the email branch: index entries whose resolved
main key has no value; the handler deletes them. -/
def emailOrphanKeys (kv : KV) (pre : String) : List String :=
  (kvKeysWith kv pre).filter (fun ik =>
    match kvGet kv ik with
    | none => false
    | some v => (kvGet kv v.asString).isNone)

inductive LookupResp
  | err (status : Nat) (body : String)
  | ok (results : List (String × RecordObj))
deriving DecidableEq

structure LookupOut where
  response : LookupResp
  kv : KV
  ops : List StoreOp
deriving DecidableEq

/-- handleLookup: email inputs go through the email index with orphan cleanup,
other inputs must be exactly two whitespace-separated words and go through the
name-key listing.  Reads are taken against the request-start store; the orphan
deletions are applied to produce the final store. -/
def handleLookup (input : Option String) (kv : KV) : LookupOut :=
  match input with
  | none => ⟨.err 400 "Missing 'input' query parameter", kv, []⟩
  | some s =>
    if s = "" then ⟨.err 400 "Missing 'input' query parameter", kv, []⟩
    else if emailRegexMatch s then
      let pre := "email_" ++ sanitize s ++ "_"
      let results := fetchValidRecords (emailValidMainKeys kv pre) kv
      let orphans := emailOrphanKeys kv pre
      ⟨.ok results, orphans.foldl kvDeleteStore kv, orphans.map StoreOp.kvDelete⟩
    else
      match splitWords (trimList s.data) with
      | [p0, p1] =>
        let pre := sanitize ⟨p0⟩ ++ "_" ++ sanitize ⟨p1⟩ ++ "_"
        ⟨.ok (fetchValidRecords (kvKeysWith kv pre) kv), kv, []⟩
      | _ => ⟨.err 400 "Input must be a valid email or full name", kv, []⟩

/-! ## Migration endpoints -/

structure MigOut where
  kv : KV
  r2 : R2
  ops : List StoreOp
deriving DecidableEq

/-- Defaulting of `url.searchParams.get("mode") || "dry-run"`. -/
def modeParam : Option String → String
  | none => "dry-run"
  | some m => if m = "" then "dry-run" else m

def emptySubmission : Submission :=
  ⟨none, none, none, none, none, none, none, none, none, none, none, none, none, none, none⟩

/-- The `JSON.parse` view of a stored value: invalid JSON throws (`none`); a JSON
object is its record; any other JSON value is treated as a memberless value
(object spread of a number/boolean yields `{}`; the indexed spread of string
literals is not modelled). -/
def parseView : KVValue → Option RecordObj
  | .plain _ => none
  | .record r => some r
  | .nonObject _ => some ⟨emptySubmission, none⟩

def isAlnumCI (c : Char) : Bool :=
  ('a' ≤ c && c ≤ 'z') || ('A' ≤ c && c ≤ 'Z') || ('0' ≤ c && c ≤ '9')

def isDigitCh (c : Char) : Bool := '0' ≤ c && c ≤ '9'

/-- Match of `/^([a-z0-9]+)_([a-z0-9]+)_([a-z0-9_]+)_(\d{13})$/i`
(worker/index.ts lines 332-333): first two segments are the maximal
alphanumeric runs before the first two underscores, the timestamp is the
final 13 characters (all digits, preceded by an underscore), and the third
group is everything in between. -/
def matchMigKey (s : String) : Option (String × String × String × String) :=
  let l := s.data
  let seg1 := l.takeWhile isAlnumCI
  match l.drop seg1.length with
  | '_' :: r2 =>
    let seg2 := r2.takeWhile isAlnumCI
    (match r2.drop seg2.length with
    | '_' :: r4 =>
      let mid := r4.take (r4.length - 14)
      let sep := r4.drop (r4.length - 14)
      if seg1 ≠ [] ∧ seg2 ≠ [] ∧ r4.length ≥ 15 ∧
          mid.all (fun c => isAlnumCI c || c = '_') ∧
          sep.take 1 = ['_'] ∧ (sep.drop 1).all isDigitCh then
        some (⟨seg1⟩, ⟨seg2⟩, ⟨mid⟩, ⟨sep.drop 1⟩)
      else none
    | _ => none)
  | _ => none

/-- One signature field of the non-delete path of /migrate-keys (lines
500-550): when the stored path starts with the old key, look the object up in
R2; when found, copy it to the renamed path in commit mode and rewrite the
recorded path; a missing object leaves the path unchanged. -/
def migrateKeysField (mode : String) (oldKey newKey tag : String)
    (curPath : Option String) (st : MigOut) : MigOut × Option String :=
  match curPath with
  | some op =>
    if oldKey.data.isPrefixOf op.data then
      let ext := if ".png".data.isSuffixOf op.data then ".png" else ""
      let newPath := newKey ++ tag ++ ext
      match r2Get st.r2 op with
      | some o =>
        if mode = "commit" then
          (⟨st.kv, r2PutStore st.r2 newPath o, st.ops ++ [.r2Put newPath o]⟩, some newPath)
        else (st, some newPath)
      | none => (st, some op)
    else (st, some op)
  | none => (st, none)

/-- One listed key of the /migrate-keys handler (lines 357-594). -/
def migrateKeysStep (mode : String) (st : MigOut) (oldKey : String) : MigOut :=
  match matchMigKey oldKey with
  | none => st
  | some (fn, ln, em, ts) =>
    let newKey := fn ++ "_" ++ ln ++ "_" ++ ts
    let emailIndexKey := "email_" ++ em ++ "_" ++ ts
    let newExists := (kvGet st.kv newKey).isSome
    if ¬ newExists ∧ mode = "delete" then st
    else
      match kvGet st.kv oldKey with
      | none => st
      | some v =>
        match parseView v with
        | none => st
        | some p =>
          if mode = "delete" then
            let sp := p.sigPaths.getD ⟨none, none⟩
            let delPaths := ([sp.participant, sp.parent].filterMap id).filter
              (fun q => oldKey.data.isPrefixOf q.data)
            ⟨kvDeleteStore st.kv oldKey,
              delPaths.foldl r2DeleteStore st.r2,
              st.ops ++ delPaths.map StoreOp.r2Delete ++ [.kvDelete oldKey]⟩
          else
            let sp := p.sigPaths.getD ⟨none, none⟩
            let (st1, newPart) := migrateKeysField mode oldKey newKey "_participant" sp.participant st
            let (st2, newParent) := migrateKeysField mode oldKey newKey "_parent" sp.parent st1
            if mode = "commit" then
              let newRec : RecordObj := ⟨p.sub, some ⟨newPart, newParent⟩⟩
              ⟨kvPutStore (kvPutStore st2.kv newKey (.record newRec)) emailIndexKey (.plain newKey),
                st2.r2,
                st2.ops ++ [.kvPut newKey (.record newRec), .kvPut emailIndexKey (.plain newKey)]⟩
            else st2

/-- Handler /migrate-keys (worker/index.ts lines 316-625); the key listing is taken as
a snapshot of the request-start store. -/
def migrateKeys (mode : String) (kv : KV) (r2 : R2) : MigOut :=
  (kv.map (·.1)).foldl (migrateKeysStep mode) ⟨kv, r2, []⟩

def containsSub (pat : List Char) : List Char → Bool
  | [] => pat.isPrefixOf ([] : List Char)
  | c :: rest => pat.isPrefixOf (c :: rest) || containsSub pat rest

/-- One R2 move of the /migrate-ess-prefix main branch (lines 1197-1246 and
1343-1391): paths already under `ESS/` are skipped; in commit mode a found
object is copied to the prefixed path and the original deleted, and the
recorded path is rewritten only on success. -/
def essMove (mode : String) (r2 : R2) (ops : List StoreOp) (path : Option String) :
    R2 × List StoreOp × Option String :=
  match path with
  | some q =>
    if "ESS/".data.isPrefixOf q.data then (r2, ops, some q)
    else
      let newPath := "ESS/" ++ q
      if mode = "commit" then
        match r2Get r2 q with
        | some o =>
          (r2DeleteStore (r2PutStore r2 newPath o) q,
            ops ++ [.r2Put newPath o, .r2Delete q], some newPath)
        | none => (r2, ops, some q)
      else (r2, ops, some q)
  | none => (r2, ops, none)

/-- The main-record block of /migrate-ess-prefix (lines 1129-1277; the handler
contains a second verbatim copy at lines 1278-1422): re-shape the record with
`rsg1 = "ESS"`, move its R2 objects under `ESS/`, and in commit mode write the
`ESS_`-prefixed key and delete the old one. -/
def migrateEssMainBlock (mode : String) (st : MigOut) (key : String) : MigOut :=
  match kvGet st.kv key with
  | none => st
  | some v =>
    match v with
    | .plain _ => st
    | .nonObject _ => st
    | .record p =>
      if ¬ isValidLookupData p then st
      else
        let newKey := "ESS_" ++ key
        let sp := p.sigPaths.getD ⟨none, none⟩
        let (r2a, ops1, pPath) := essMove mode st.r2 st.ops sp.participant
        let (r2b, ops2, qPath) := essMove mode r2a ops1 sp.parent
        let newRec : RecordObj := ⟨{ p.sub with rsg1 := some "ESS" }, some ⟨pPath, qPath⟩⟩
        if mode = "commit" then
          ⟨kvDeleteStore (kvPutStore st.kv newKey (.record newRec)) key, r2b,
            ops2 ++ [.kvPut newKey (.record newRec), .kvDelete key]⟩
        else ⟨st.kv, r2b, ops2⟩

/-- One listed key of the /migrate-ess-prefix handler (lines 1051-1423):
`ESS_`-prefixed keys are skipped, index keys are re-created under `ESS_` and
deleted in commit mode, and main records go through `migrateEssMainBlock`
twice (the source duplicates the block; after a commit the second pass finds
the old key deleted and does nothing). -/
def migrateEssStep (mode : String) (st : MigOut) (key : String) : MigOut :=
  if "ESS_".data.isPrefixOf key.data then st
  else if "email_".data.isPrefixOf key.data ∨ containsSub "_email_".data key.data then
    match kvGet st.kv key with
    | none => st
    | some v =>
      let indexNewKey := "ESS_" ++ key
      if mode = "commit" then
        ⟨kvDeleteStore (kvPutStore st.kv indexNewKey v) key, st.r2,
          st.ops ++ [.kvPut indexNewKey v, .kvDelete key]⟩
      else st
  else
    migrateEssMainBlock mode (migrateEssMainBlock mode st key) key

/-- Handler /migrate-ess-prefix (worker/index.ts lines 1009-1449), over a snapshot of
the request-start key listing. -/
def migrateEss (mode : String) (kv : KV) (r2 : R2) : MigOut :=
  (kv.map (·.1)).foldl (migrateEssStep mode) ⟨kv, r2, []⟩

/-- The data-URL header accepted by /migrate-base64-to-r2 for a stored inline
signature, PNG checked first. -/
def b64FieldHeader (s : String) : Option String :=
  if pngHeader.data.isPrefixOf s.data then some pngHeader
  else if jpegHeader.data.isPrefixOf s.data then some jpegHeader
  else none

/-- One signature field of /migrate-base64-to-r2 (part_007 lines 470-537):
an inline data-URL signature is decoded and, in commit mode, uploaded under
`<key>_<tag>.<ext>`; the caller rewrites the record field and path. -/
def b64Field (mode : String) (key tag : String) (val : Option String)
    (r2 : R2) (ops : List StoreOp) : R2 × List StoreOp × Option String × Bool :=
  match val with
  | some s =>
    (match b64FieldHeader s with
    | some h =>
      let ext := if h = pngHeader then "png" else "jpeg"
      let payload : String := ⟨s.data.drop h.data.length⟩
      let r2Path := key ++ "_" ++ tag ++ "." ++ ext
      if mode = "commit" then
        (r2PutStore r2 r2Path ⟨payload⟩, ops ++ [.r2Put r2Path ⟨payload⟩], some r2Path, true)
      else (r2, ops, some r2Path, true)
    | none => (r2, ops, none, false))
  | none => (r2, ops, none, false)

/-- One listed key of the /migrate-base64-to-r2 handler (part_007 lines
414-580): index keys are skipped; a valid record with inline base64
signatures has them uploaded to R2 and, in commit mode, is rewritten in place
under the same KV key with the signatures replaced by paths. -/
def migrateB64Step (mode : String) (st : MigOut) (key : String) : MigOut :=
  if "email_".data.isPrefixOf key.data then st
  else
    match kvGet st.kv key with
    | none => st
    | some (.plain _) => st
    | some (.nonObject _) => st
    | some (.record p) =>
      if ¬ isValidLookupData p then st
      else
        let sp := p.sigPaths.getD ⟨none, none⟩
        let (r2a, ops1, pEntry, pUpd) :=
          b64Field mode key "participant" p.sub.signatureParticipant st.r2 st.ops
        let (r2b, ops2, qEntry, qUpd) :=
          b64Field mode key "parent" p.sub.signatureParent r2a ops1
        if pUpd || qUpd then
          let newRec : RecordObj :=
            ⟨{ p.sub with
                signatureParticipant := if pUpd then none else p.sub.signatureParticipant
                signatureParent := if qUpd then none else p.sub.signatureParent },
              some ⟨if pUpd then pEntry else sp.participant,
                if qUpd then qEntry else sp.parent⟩⟩
          if mode = "commit" then
            ⟨kvPutStore st.kv key (.record newRec), r2b, ops2 ++ [.kvPut key (.record newRec)]⟩
          else ⟨st.kv, r2b, ops2⟩
        else ⟨st.kv, r2b, ops2⟩

/-- Handler /migrate-base64-to-r2 (part_007 lines 373-600), over a snapshot of the
request-start key listing. -/
def migrateB64 (mode : String) (kv : KV) (r2 : R2) : MigOut :=
  (kv.map (·.1)).foldl (migrateB64Step mode) ⟨kv, r2, []⟩

/-! ## withRetry (src/scripts/generate-pdfs.ts lines 60-72, identical in
src/unnamed/part_009 lines 55-67) -/

/-- The observable outcome of a `withRetry` run: the value returned or the
error thrown (`Except.error none` models the `throw lastErr` after a loop
that never ran, which throws `undefined`), the number of invocations of `fn`,
and the sleep durations (ms) performed between failed attempts, in order. -/
structure RetryOut (E A : Type) where
  result : Except (Option E) A
  calls : Nat
  sleeps : List Nat

/-- The sleeps performed before reaching attempt `k`: `500 * (i + 1)` after
each failed attempt `i < k`. -/
def sleepsUpTo (k : Nat) : List Nat :=
  (List.range k).map (fun i => 500 * (i + 1))

/-- The retry loop: `fn` is modelled as a function from the attempt number to
that invocation's outcome.  Mirrors the `for` loop of `withRetry`: return on
success, rethrow on the final attempt, otherwise sleep and continue; the
trailing `throw lastErr` is reached only when the loop never runs. -/
def withRetryGo {E A : Type} (fn : Nat → Except E A) (retries attempt : Nat)
    (lastErr : Option E) : RetryOut E A :=
  if attempt < retries then
    match fn attempt with
    | .ok a => ⟨.ok a, attempt + 1, sleepsUpTo attempt⟩
    | .error e =>
      if attempt = retries - 1 then ⟨.error (some e), attempt + 1, sleepsUpTo attempt⟩
      else withRetryGo fn retries (attempt + 1) (some e)
  else ⟨.error lastErr, attempt, sleepsUpTo attempt⟩
termination_by retries - attempt

def withRetryDefaultRetries : Nat := 3

/-- Embedding of `withRetry(fn, retries)`. -/
def withRetry {E A : Type} (fn : Nat → Except E A) (retries : Nat) : RetryOut E A :=
  withRetryGo fn retries 0 none

/-! ## General helper lemmas -/

theorem foldl_fixed_of_id {α β : Type} (f : α → β → α) (h : ∀ a b, f a b = a) :
    ∀ (l : List β) (init : α), l.foldl f init = init := by
  intro l
  induction l with
  | nil => intro init; rfl
  | cons b t ih => intro init; rw [List.foldl_cons, h]; exact ih init

theorem isPrefixOf_self_append {α : Type} [DecidableEq α] (l m : List α) :
    l.isPrefixOf (l ++ m) = true := by
  induction l with
  | nil => rw [List.nil_append]; cases m <;> rfl
  | cons a t ih => simpa [List.isPrefixOf] using ih

theorem find_map_put_self (k : String) (v : KVValue) (kv : KV)
    (h : (kv.find? (fun e => e.1 = k)).isSome = true) :
    (kv.map (fun e => if e.1 = k then (k, v) else e)).find? (fun e => e.1 = k) =
      some (k, v) := by
  induction kv with
  | nil => simp at h
  | cons e t ih =>
    by_cases he : e.1 = k
    · rw [List.map_cons, if_pos he, List.find?_cons_of_pos _ (by simp)]
    · rw [List.map_cons, if_neg he, List.find?_cons_of_neg _ (by simp [he])]
      rw [List.find?_cons_of_neg _ (by simp [he])] at h
      exact ih h

theorem find_map_put_other (k k' : String) (v : KVValue) (hne : k' ≠ k) (kv : KV) :
    (kv.map (fun e => if e.1 = k then (k, v) else e)).find? (fun e => e.1 = k') =
      kv.find? (fun e => e.1 = k') := by
  induction kv with
  | nil => rfl
  | cons e t ih =>
    by_cases he : e.1 = k
    · have hek' : ¬ e.1 = k' := by rw [he]; exact fun h => hne h.symm
      rw [List.map_cons, if_pos he,
        List.find?_cons_of_neg _ (by simp; exact fun h => hne h.symm),
        List.find?_cons_of_neg _ (by simp [hek']), ih]
    · rw [List.map_cons, if_neg he]
      by_cases he' : e.1 = k'
      · rw [List.find?_cons_of_pos _ (by simp [he']),
          List.find?_cons_of_pos _ (by simp [he'])]
      · rw [List.find?_cons_of_neg _ (by simp [he']),
          List.find?_cons_of_neg _ (by simp [he']), ih]

theorem kvGet_put_self (kv : KV) (k : String) (v : KVValue) :
    kvGet (kvPutStore kv k v) k = some v := by
  unfold kvPutStore
  split
  · next hfound => unfold kvGet; rw [find_map_put_self k v kv hfound]; rfl
  · next hnone =>
    unfold kvGet
    rw [List.find?_append]
    have h0 : kv.find? (fun e => e.1 = k) = none := by
      cases h : kv.find? (fun e => e.1 = k) with
      | none => rfl
      | some e => rw [h] at hnone; simp at hnone
    simp [h0, List.find?]

theorem kvGet_put_other (kv : KV) (k k' : String) (v : KVValue) (hne : k' ≠ k) :
    kvGet (kvPutStore kv k v) k' = kvGet kv k' := by
  unfold kvPutStore
  split
  · unfold kvGet; rw [find_map_put_other k k' v hne kv]
  · unfold kvGet
    rw [List.find?_append]
    cases h : kv.find? (fun e => e.1 = k') with
    | some e => simp [h]
    | none => simp [h, List.find?, Ne.symm hne]

/-! ## Claim theorems -/

/-- C3: for every POSTed submission in which any of the ten required fields is
absent, falsy, or blank after trimming, handleFormPost returns status 400 with
body `Missing required field: <field>` (the first failing field in declaration
order) and performs no KV or R2 write. -/
theorem missing_required_field_rejected (sub : Submission) (today : SimpleDate)
    (ts : Nat) (kv : KV) (r2 : R2) (f : FieldName)
    (hf : f ∈ requiredFields) (hm : missingOrBlank (getField sub f) = true) :
    ∃ g, g ∈ requiredFields ∧ missingOrBlank (getField sub g) = true ∧
      handleFormPost sub today ts kv r2 =
        ⟨.reject 400 ("Missing required field: " ++ fieldNameStr g), kv, r2, []⟩ := by
  have hfind : (requiredFields.find? (fun f => missingOrBlank (getField sub f))).isSome = true := by
    rw [List.find?_isSome]; exact ⟨f, hf, hm⟩
  obtain ⟨g, hg⟩ := Option.isSome_iff_exists.mp hfind
  have hgm : missingOrBlank (getField sub g) = true := by
    have h2 := List.find?_some hg
    simpa using h2
  refine ⟨g, List.mem_of_find?_eq_some hg, hgm, ?_⟩
  simp [handleFormPost, validateSubmission, checkRequired, hg]

/-- Witness for C3: the all-absent submission is rejected for its first
required field, with untouched stores. -/
theorem missing_required_field_rejected_witness :
    (.preferredLanguage ∈ requiredFields ∧
      missingOrBlank (getField emptySubmission .preferredLanguage) = true) ∧
    ∃ g, g ∈ requiredFields ∧ missingOrBlank (getField emptySubmission g) = true ∧
      handleFormPost emptySubmission ⟨2025, 6, 1⟩ 0 [] [] =
        ⟨.reject 400 ("Missing required field: " ++ fieldNameStr g), [], [], []⟩ :=
  ⟨⟨by decide, by decide⟩,
    missing_required_field_rejected emptySubmission ⟨2025, 6, 1⟩ 0 [] []
      .preferredLanguage (by decide) (by decide)⟩

/-- C7: a submission passing the required-field check whose email is a string
not matching the email regexp is rejected with 400 `Invalid email format`. -/
theorem invalid_email_format_rejected (sub : Submission) (today : SimpleDate)
    (ts : Nat) (kv : KV) (r2 : R2) (e : String)
    (hreq : checkRequired sub = none) (he : sub.email = some e)
    (hm : emailRegexMatch e = false) :
    handleFormPost sub today ts kv r2 =
      ⟨.reject 400 "Invalid email format", kv, r2, []⟩ := by
  simp [handleFormPost, validateSubmission, hreq, checkEmailFormat, he, hm]

def subC7 : Submission :=
  ⟨some "en", some "Jo", some "Do", some "notanemail", some "1", some "en",
   some "CS", some "ESS", some "Em", some "2", none, none, none, none, none⟩

/-- Witness for C7: a complete submission with a malformed email is rejected. -/
theorem invalid_email_format_rejected_witness :
    checkRequired subC7 = none ∧ emailRegexMatch "notanemail" = false ∧
    handleFormPost subC7 ⟨2025, 6, 1⟩ 0 [] [] =
      ⟨.reject 400 "Invalid email format", [], [], []⟩ :=
  ⟨by decide, by decide,
    invalid_email_format_rejected subC7 ⟨2025, 6, 1⟩ 0 [] [] "notanemail"
      (by decide) rfl (by decide)⟩

theorem persistSubmission_accept_shape (sub : Submission) (ts : Nat) (kv : KV)
    (r2 : R2) (id : String)
    (hacc : (persistSubmission sub ts kv r2).result = .accept id) :
    id = sanitize (sub.firstName.getD "") ++ "_" ++ sanitize (sub.lastName.getD "") ++
        "_" ++ Nat.repr ts ∧
    (persistSubmission sub ts kv r2).ops.head? =
      some (.kvPut ("email_" ++ sanitize (sub.email.getD "") ++ "_" ++ Nat.repr ts)
        (.plain id)) := by
  unfold persistSubmission at hacc ⊢
  by_cases hp : isPngDataUrl sub.signatureParticipant = true <;>
    by_cases hq : isPngDataUrl sub.signatureParent = true <;>
    simp only [hp, hq, if_true, if_false, Bool.false_eq_true, ite_true, ite_false,
      Bool.not_eq_true] at hacc ⊢
  · by_cases ho1 : oversize (pngPayload (sub.signatureParticipant.getD "")) = true <;>
      simp only [ho1, if_true, if_false, Bool.false_eq_true, ite_true, ite_false] at hacc ⊢
    · simp at hacc
    · by_cases ho2 : oversize (pngPayload (sub.signatureParent.getD "")) = true <;>
        simp only [ho2, if_true, if_false, Bool.false_eq_true, ite_true, ite_false] at hacc ⊢
      · simp at hacc
      · injection hacc with h; subst h; exact ⟨rfl, by simp⟩
  · by_cases ho1 : oversize (pngPayload (sub.signatureParticipant.getD "")) = true <;>
      simp only [ho1, if_true, if_false, Bool.false_eq_true, ite_true, ite_false] at hacc ⊢
    · simp at hacc
    · injection hacc with h; subst h; exact ⟨rfl, by simp⟩
  · by_cases ho2 : oversize (pngPayload (sub.signatureParent.getD "")) = true <;>
      simp only [ho2, if_true, if_false, Bool.false_eq_true, ite_true, ite_false] at hacc ⊢
    · simp at hacc
    · injection hacc with h; subst h; exact ⟨rfl, by simp⟩
  · injection hacc with h; subst h; exact ⟨rfl, by simp⟩

/-- C1: every submission accepted by handleFormPost gets the id
`sanitize(firstName) + "_" + sanitize(lastName) + "_" + timestamp`, and the
first store operation of the request writes the companion email index key
`"email_" + sanitize(email) + "_" + timestamp` whose stored value is exactly
that main key. -/
theorem accepted_key_derivation (sub : Submission) (today : SimpleDate) (ts : Nat)
    (kv : KV) (r2 : R2) (id f l e : String)
    (hacc : (handleFormPost sub today ts kv r2).result = .accept id)
    (hf : sub.firstName = some f) (hl : sub.lastName = some l)
    (he : sub.email = some e) :
    id = sanitize f ++ "_" ++ sanitize l ++ "_" ++ Nat.repr ts ∧
    (handleFormPost sub today ts kv r2).ops.head? =
      some (.kvPut ("email_" ++ sanitize e ++ "_" ++ Nat.repr ts) (.plain id)) := by
  unfold handleFormPost at hacc ⊢
  cases hv : validateSubmission sub today with
  | some r => rw [hv] at hacc; simp at hacc
  | none =>
    rw [hv] at hacc
    have h := persistSubmission_accept_shape sub ts kv r2 id hacc
    rw [hf, hl, he] at h
    simpa using h

def subC1 : Submission :=
  ⟨some "en", some "John", some "Doe", some "a@b.c", some "555", some "en fr",
   some "CS", some "ESS", some "Mom", some "556", none, some "John Doe",
   some "typed-signature", none, none⟩

/-- Witness for C1: a concrete accepted submission carries the derived id and
index entry. -/
theorem accepted_key_derivation_witness :
    (handleFormPost subC1 ⟨2025, 6, 1⟩ 1700000000000 [] []).result =
      .accept "john_doe_1700000000000" ∧
    ("john_doe_1700000000000" =
        sanitize "John" ++ "_" ++ sanitize "Doe" ++ "_" ++ Nat.repr 1700000000000 ∧
      (handleFormPost subC1 ⟨2025, 6, 1⟩ 1700000000000 [] []).ops.head? =
        some (.kvPut ("email_" ++ sanitize "a@b.c" ++ "_" ++ Nat.repr 1700000000000)
          (.plain "john_doe_1700000000000"))) :=
  ⟨by decide,
    accepted_key_derivation subC1 ⟨2025, 6, 1⟩ 1700000000000 [] []
      "john_doe_1700000000000" "John" "Doe" "a@b.c" (by decide) rfl rfl rfl⟩

/-- C2 (amended): with the earlier checks passing, the primary handleFormPost
requires parent name/signature for computed minors and participant
name/signature otherwise; the RSG variant, whose
`REQUIRE_PARTICIPANT_SIGNATURE_FOR_MINORS` flag is true, requires the
participant fields regardless of age and never requires the parent fields. -/
theorem age_conditional_requirements (sub : Submission) (today : SimpleDate)
    (ts : Nat) (kv : KV) (r2 : R2)
    (h1 : checkRequired sub = none) (h2 : checkEmailFormat sub = none)
    (h3 : checkFutureDob sub today = none) :
    (isAdultCheck sub today = false →
      ∀ f, f ∈ parentFields → missingOrBlank (getField sub f) = true →
      ∃ g, g ∈ parentFields ∧ missingOrBlank (getField sub g) = true ∧
        handleFormPost sub today ts kv r2 =
          ⟨.reject 400 ("Missing required field: " ++ fieldNameStr g), kv, r2, []⟩) ∧
    (isAdultCheck sub today = true →
      ∀ f, f ∈ participantFields → missingOrBlank (getField sub f) = true →
      ∃ g, g ∈ participantFields ∧ missingOrBlank (getField sub g) = true ∧
        handleFormPost sub today ts kv r2 =
          ⟨.reject 400 ("Missing required field: " ++ fieldNameStr g), kv, r2, []⟩) ∧
    (∀ f, f ∈ participantFields → missingOrBlank (getField sub f) = true →
      ∃ g, g ∈ participantFields ∧ missingOrBlank (getField sub g) = true ∧
        handleFormPostRSG sub today ts kv r2 =
          ⟨.reject 400 ("Missing required field: " ++ fieldNameStr g), kv, r2, []⟩) ∧
    checkConditionalFieldsRSG sub today = findMissing sub participantFields := by
  have hrsgcond : checkConditionalFieldsRSG sub today = findMissing sub participantFields := by
    unfold checkConditionalFieldsRSG REQUIRE_PARTICIPANT_SIGNATURE_FOR_MINORS
    by_cases ha : isAdultCheck sub today = true <;> simp [ha]
  refine ⟨?_, ?_, ?_, hrsgcond⟩
  · intro ha f hf hm
    have hfind : ((parentFields.find? (fun f => missingOrBlank (getField sub f))).isSome) = true := by
      rw [List.find?_isSome]; exact ⟨f, hf, hm⟩
    obtain ⟨g, hg⟩ := Option.isSome_iff_exists.mp hfind
    have hgm : missingOrBlank (getField sub g) = true := by
      have := List.find?_some hg; simpa using this
    refine ⟨g, List.mem_of_find?_eq_some hg, hgm, ?_⟩
    simp [handleFormPost, validateSubmission, h1, h2, h3,
      checkConditionalFields, ha, findMissing, hg]
  · intro ha f hf hm
    have hfind : ((participantFields.find? (fun f => missingOrBlank (getField sub f))).isSome) = true := by
      rw [List.find?_isSome]; exact ⟨f, hf, hm⟩
    obtain ⟨g, hg⟩ := Option.isSome_iff_exists.mp hfind
    have hgm : missingOrBlank (getField sub g) = true := by
      have := List.find?_some hg; simpa using this
    refine ⟨g, List.mem_of_find?_eq_some hg, hgm, ?_⟩
    simp [handleFormPost, validateSubmission, h1, h2, h3,
      checkConditionalFields, ha, findMissing, hg]
  · intro f hf hm
    have hfind : ((participantFields.find? (fun f => missingOrBlank (getField sub f))).isSome) = true := by
      rw [List.find?_isSome]; exact ⟨f, hf, hm⟩
    obtain ⟨g, hg⟩ := Option.isSome_iff_exists.mp hfind
    have hgm : missingOrBlank (getField sub g) = true := by
      have := List.find?_some hg; simpa using this
    refine ⟨g, List.mem_of_find?_eq_some hg, hgm, ?_⟩
    simp [handleFormPostRSG, validateSubmissionRSG, h1, h2, h3, hrsgcond,
      findMissing, hg]

def subC2 : Submission :=
  ⟨some "en", some "Kid", some "Doe", some "a@b.c", some "555", some "en",
   some "CS", some "ESS", some "Mom", some "556", some "2015-01-01",
   some "Kid Doe", some "typed", none, none⟩

/-- Counterexample for C2 as stated: in the RSG variant of handleFormPost, a
submission whose dob yields a computed age under 18 and whose parent name and
signature are absent is accepted, not rejected with 400. -/
theorem rsg_minor_accepted_without_parent_fields :
    isAdultCheck subC2 ⟨2025, 6, 1⟩ = false ∧
    missingOrBlank subC2.fullNameParent = true ∧
    missingOrBlank subC2.signatureParent = true ∧
    (handleFormPostRSG subC2 ⟨2025, 6, 1⟩ 1 [] []).result = .accept "ESS_kid_doe_1" := by
  decide

/-- Witness for the amended C2: the same minor submission is rejected by the
primary handleFormPost for its missing parent name. -/
theorem age_conditional_requirements_witness :
    (checkRequired subC2 = none ∧ isAdultCheck subC2 ⟨2025, 6, 1⟩ = false ∧
      FieldName.fullNameParent ∈ parentFields ∧
      missingOrBlank (getField subC2 .fullNameParent) = true) ∧
    ∃ g, g ∈ parentFields ∧ missingOrBlank (getField subC2 g) = true ∧
      handleFormPost subC2 ⟨2025, 6, 1⟩ 1 [] [] =
        ⟨.reject 400 ("Missing required field: " ++ fieldNameStr g), [], [], []⟩ :=
  ⟨⟨by decide, by decide, by decide, by decide⟩,
    (age_conditional_requirements subC2 ⟨2025, 6, 1⟩ 1 [] []
        (by decide) (by decide) (by decide)).1 (by decide)
      .fullNameParent (by decide) (by decide)⟩

theorem withRetryGo_ok {E A : Type} (fn : Nat → Except E A) (retries k : Nat) (a : A)
    (hk : k < retries) (hok : fn k = .ok a)
    (hprev : ∀ j, j < k → ∃ e, fn j = .error e) :
    ∀ gap attempt lastErr, k - attempt = gap → attempt ≤ k →
      withRetryGo fn retries attempt lastErr = ⟨.ok a, k + 1, sleepsUpTo k⟩ := by
  intro gap
  induction gap with
  | zero =>
    intro attempt lastErr hgap hle
    have : attempt = k := by omega
    subst this
    unfold withRetryGo
    rw [if_pos (by omega), hok]
  | succ g ih =>
    intro attempt lastErr hgap hle
    have hlt : attempt < k := by omega
    obtain ⟨e, he⟩ := hprev attempt hlt
    have hne : ¬ attempt = retries - 1 := by omega
    have hrec := ih (attempt + 1) (some e) (by omega) (by omega)
    unfold withRetryGo
    rw [if_pos (by omega), he]
    simpa [hne] using hrec

theorem withRetryGo_allfail {E A : Type} (fn : Nat → Except E A) (retries : Nat) (e : E)
    (hone : 1 ≤ retries) (hfin : fn (retries - 1) = .error e)
    (hall : ∀ j, j < retries → ∃ e2, fn j = .error e2) :
    ∀ gap attempt lastErr, retries - 1 - attempt = gap → attempt < retries →
      withRetryGo fn retries attempt lastErr =
        ⟨.error (some e), retries, sleepsUpTo (retries - 1)⟩ := by
  intro gap
  induction gap with
  | zero =>
    intro attempt lastErr hgap hlt
    have : attempt = retries - 1 := by omega
    subst this
    unfold withRetryGo
    rw [if_pos (by omega), hfin]
    simp [show retries - 1 + 1 = retries by omega]
  | succ g ih =>
    intro attempt lastErr hgap hlt
    obtain ⟨e2, he2⟩ := hall attempt hlt
    have hne : ¬ attempt = retries - 1 := by omega
    have hrec := ih (attempt + 1) (some e2) (by omega) (by omega)
    unfold withRetryGo
    rw [if_pos (by omega), he2]
    simpa [hne] using hrec

theorem withRetryGo_calls_le {E A : Type} (fn : Nat → Except E A) (retries : Nat) :
    ∀ gap attempt lastErr, retries - attempt = gap → attempt ≤ retries →
      (withRetryGo fn retries attempt lastErr).calls ≤ retries := by
  intro gap
  induction gap with
  | zero =>
    intro attempt lastErr hgap hle
    have : attempt = retries := by omega
    subst this
    unfold withRetryGo
    rw [if_neg (by omega)]
  | succ g ih =>
    intro attempt lastErr hgap hle
    have hlt : attempt < retries := by omega
    unfold withRetryGo
    rw [if_pos hlt]
    cases hfa : fn attempt with
    | ok a => simpa using hlt
    | error e =>
      by_cases hfinal : attempt = retries - 1
      · simp only [hfinal, ite_true, if_true]
        simp
        omega
      · have hrec := ih (attempt + 1) (some e) (by omega) (by omega)
        simpa [hfinal] using hrec

/-- C8: `withRetry` invokes its function at most `retries` times (3 by
default), returns the result of the first succeeding invocation, sleeps
`500 * (attempt + 1)` ms after each failed non-final attempt, and throws iff
every attempt throws, propagating the final attempt's error. -/
theorem withRetry_spec {E A : Type} (fn : Nat → Except E A) (retries : Nat) :
    withRetryDefaultRetries = 3 ∧
    (withRetry fn retries).calls ≤ retries ∧
    (∀ k a, k < retries → fn k = .ok a → (∀ j, j < k → ∃ e, fn j = .error e) →
      withRetry fn retries = ⟨.ok a, k + 1, sleepsUpTo k⟩) ∧
    (∀ e, 1 ≤ retries → fn (retries - 1) = .error e →
      (∀ j, j < retries → ∃ e2, fn j = .error e2) →
      withRetry fn retries = ⟨.error (some e), retries, sleepsUpTo (retries - 1)⟩) ∧
    ((∃ err, (withRetry fn retries).result = .error err) ↔
      ∀ k, k < retries → ∃ e, fn k = .error e) := by
  refine ⟨rfl, ?_, ?_, ?_, ?_⟩
  · exact withRetryGo_calls_le fn retries retries 0 none (by omega) (by omega)
  · intro k a hk hok hprev
    exact withRetryGo_ok fn retries k a hk hok hprev k 0 none (by omega) (by omega)
  · intro e hone hfin hall
    exact withRetryGo_allfail fn retries e hone hfin hall (retries - 1) 0 none
      (by omega) (by omega)
  · constructor
    · intro ⟨err, herr⟩ k hk
      by_contra hne
      push_neg at hne
      classical
      have hexist : ∃ n, (fn n).isOk = true := by
        cases hfk : fn k with
        | ok a => exact ⟨k, by simp [hfk, Except.isOk, Except.toBool]⟩
        | error e2 => exact absurd hfk (hne e2)
      have hnok : (fn (Nat.find hexist)).isOk = true := Nat.find_spec hexist
      have hnmin : ∀ m, m < Nat.find hexist → ¬ (fn m).isOk = true :=
        fun m hm => Nat.find_min hexist hm
      have hnle : Nat.find hexist ≤ k := by
        by_contra hgt
        push_neg at hgt
        cases hfk : fn k with
        | ok a => exact hnmin k (by omega) (by simp [hfk, Except.isOk, Except.toBool])
        | error e2 => exact absurd hfk (hne e2)
      obtain ⟨a, ha⟩ : ∃ a, fn (Nat.find hexist) = .ok a := by
        cases hfn : fn (Nat.find hexist) with
        | ok a => exact ⟨a, rfl⟩
        | error e2 => rw [hfn] at hnok; simp [Except.isOk, Except.toBool] at hnok
      have hrun := withRetryGo_ok fn retries (Nat.find hexist) a (by omega) ha
        (fun m hm => by
          cases hfm : fn m with
          | ok b => exact absurd (by simp [hfm, Except.isOk, Except.toBool]) (hnmin m hm)
          | error e2 => exact ⟨e2, rfl⟩)
        (Nat.find hexist) 0 none (by omega) (by omega)
      rw [withRetry] at herr
      rw [hrun] at herr
      simp at herr
    · intro hall
      rcases Nat.eq_zero_or_pos retries with hz | hpos
      · subst hz
        refine ⟨none, ?_⟩
        rw [withRetry]
        unfold withRetryGo
        rw [if_neg (by omega)]
      · obtain ⟨e, he⟩ := hall (retries - 1) (by omega)
        refine ⟨some e, ?_⟩
        rw [withRetry, withRetryGo_allfail fn retries e (by omega) he hall
          (retries - 1) 0 none (by omega) (by omega)]

def fnC8 (k : Nat) : Except Unit Nat := if k = 0 then .error () else .ok k

/-- Witness for C8: a function failing once then succeeding is retried once,
after a single 500 ms sleep, and returns the second invocation's value. -/
theorem withRetry_spec_witness :
    (fnC8 1 = .ok 1 ∧ 1 < 3) ∧
    withRetry fnC8 3 = ⟨.ok 1, 2, sleepsUpTo 1⟩ ∧ sleepsUpTo 1 = [500] :=
  ⟨⟨rfl, by decide⟩,
    (withRetry_spec fnC8 3).2.2.1 1 1 (by decide) rfl
      (fun j hj => ⟨(), by
        have hj0 : j = 0 := by omega
        subst hj0; rfl⟩),
    by decide⟩

theorem migrateKeysField_noncommit (mode oldKey newKey tag : String)
    (curPath : Option String) (st : MigOut) (hc : mode ≠ "commit") :
    ∃ pth, migrateKeysField mode oldKey newKey tag curPath st = (st, pth) := by
  unfold migrateKeysField
  cases curPath with
  | none => exact ⟨none, rfl⟩
  | some op =>
    simp only []
    by_cases hpre : oldKey.data.isPrefixOf op.data = true
    · simp only [hpre, if_true, ite_true]
      cases hg : r2Get st.r2 op with
      | none => simp only [hg]; exact ⟨_, rfl⟩
      | some o => simp only [hg]; rw [if_neg hc]; exact ⟨_, rfl⟩
    · rw [if_neg hpre]
      exact ⟨_, rfl⟩

theorem migrateKeysStep_id (mode : String) (hc : mode ≠ "commit")
    (hd : mode ≠ "delete") (st : MigOut) (k : String) :
    migrateKeysStep mode st k = st := by
  unfold migrateKeysStep
  cases hmk : matchMigKey k with
  | none => rfl
  | some t =>
    obtain ⟨kf, kl, ke, kt⟩ := t
    simp only []
    rw [if_neg (by simp [hd])]
    cases hv : kvGet st.kv k with
    | none => simp only [hv]
    | some v =>
      simp only [hv]
      cases hp : parseView v with
      | none => simp only [hp]
      | some p =>
        simp only [hp]
        rw [if_neg hd]
        obtain ⟨p1, hp1⟩ := migrateKeysField_noncommit mode k
          (kf ++ "_" ++ kl ++ "_" ++ kt) "_participant"
          (p.sigPaths.getD ⟨none, none⟩).participant st hc
        rw [hp1]
        simp only []
        obtain ⟨p2, hp2⟩ := migrateKeysField_noncommit mode k
          (kf ++ "_" ++ kl ++ "_" ++ kt) "_parent"
          (p.sigPaths.getD ⟨none, none⟩).parent st hc
        rw [hp2]
        simp only []
        rw [if_neg hc]

theorem essMove_noncommit (mode : String) (r2 : R2) (ops : List StoreOp)
    (path : Option String) (hc : mode ≠ "commit") :
    ∃ pth, essMove mode r2 ops path = (r2, ops, pth) := by
  unfold essMove
  cases path with
  | none => exact ⟨none, rfl⟩
  | some q =>
    simp only []
    by_cases hpre : ("ESS/".data.isPrefixOf q.data) = true
    · simp only [hpre, if_true, ite_true]
      exact ⟨_, rfl⟩
    · rw [if_neg hpre, if_neg hc]
      exact ⟨_, rfl⟩

theorem migrateEssMainBlock_id (mode : String) (hc : mode ≠ "commit")
    (st : MigOut) (k : String) : migrateEssMainBlock mode st k = st := by
  unfold migrateEssMainBlock
  cases hv : kvGet st.kv k with
  | none => simp only [hv]
  | some v =>
    simp only [hv]
    cases v with
    | plain s => rfl
    | nonObject s => rfl
    | record p =>
      simp only []
      by_cases hval : isValidLookupData p = true
      · rw [if_neg (by simp [hval])]
        obtain ⟨p1, hp1⟩ := essMove_noncommit mode st.r2 st.ops
          (p.sigPaths.getD ⟨none, none⟩).participant hc
        rw [hp1]
        simp only []
        obtain ⟨p2, hp2⟩ := essMove_noncommit mode st.r2 st.ops
          (p.sigPaths.getD ⟨none, none⟩).parent hc
        rw [hp2]
        simp only []
        rw [if_neg hc]
      · rw [if_pos (by simpa using hval)]

theorem migrateEssStep_id (mode : String) (hc : mode ≠ "commit")
    (st : MigOut) (k : String) : migrateEssStep mode st k = st := by
  unfold migrateEssStep
  by_cases h1 : ("ESS_".data.isPrefixOf k.data) = true
  · rw [if_pos h1]
  · rw [if_neg h1]
    by_cases h2 : ("email_".data.isPrefixOf k.data = true ∨
      containsSub "_email_".data k.data = true)
    · rw [if_pos h2]
      cases hv : kvGet st.kv k with
      | none => simp only [hv]
      | some v => simp only [hv]; rw [if_neg hc]
    · rw [if_neg h2, migrateEssMainBlock_id mode hc, migrateEssMainBlock_id mode hc]

theorem b64Field_noncommit (mode key tag : String) (val : Option String)
    (r2 : R2) (ops : List StoreOp) (hc : mode ≠ "commit") :
    ∃ pe : Option String × Bool,
      b64Field mode key tag val r2 ops = (r2, ops, pe.1, pe.2) := by
  unfold b64Field
  cases val with
  | none => exact ⟨(none, false), rfl⟩
  | some s =>
    simp only []
    cases hh : b64FieldHeader s with
    | none => simp only [hh]; exact ⟨(none, false), rfl⟩
    | some h =>
      simp only [hh]
      rw [if_neg hc]
      exact ⟨(_, _), rfl⟩

theorem migrateB64Step_id (mode : String) (hc : mode ≠ "commit")
    (st : MigOut) (k : String) : migrateB64Step mode st k = st := by
  unfold migrateB64Step
  by_cases h1 : ("email_".data.isPrefixOf k.data) = true
  · rw [if_pos h1]
  · rw [if_neg h1]
    cases hv : kvGet st.kv k with
    | none => simp only [hv]
    | some v =>
      simp only [hv]
      cases v with
      | plain s => rfl
      | nonObject s => rfl
      | record p =>
        simp only []
        by_cases hval : isValidLookupData p = true
        · rw [if_neg (not_not_intro hval)]
          obtain ⟨pe1, hp1⟩ := b64Field_noncommit mode k "participant"
            p.sub.signatureParticipant st.r2 st.ops hc
          rw [hp1]
          simp only []
          obtain ⟨pe2, hp2⟩ := b64Field_noncommit mode k "parent"
            p.sub.signatureParent st.r2 st.ops hc
          rw [hp2]
          simp only []
          by_cases hu : (pe1.2 || pe2.2) = true
          · rw [if_pos hu, if_neg hc]
          · rw [if_neg hu]
        · rw [if_pos hval]

/-- C9: with a mode other than `commit` (and other than `delete` for
/migrate-keys) — in particular for a dry-run or an absent mode parameter,
which defaults to `dry-run` — each migration endpoint issues no KV put, no KV
delete, no R2 put and no R2 delete, and both stores are unchanged. -/
theorem migrations_noncommit_pure (mode : String) (kv : KV) (r2 : R2)
    (hc : mode ≠ "commit") :
    (mode ≠ "delete" → migrateKeys mode kv r2 = ⟨kv, r2, []⟩) ∧
    migrateEss mode kv r2 = ⟨kv, r2, []⟩ ∧
    migrateB64 mode kv r2 = ⟨kv, r2, []⟩ ∧
    modeParam none = "dry-run" ∧ modeParam (some "dry-run") = "dry-run" ∧
    ("dry-run" : String) ≠ "commit" ∧ ("dry-run" : String) ≠ "delete" := by
  refine ⟨?_, ?_, ?_, rfl, by decide, by decide, by decide⟩
  · intro hd
    exact foldl_fixed_of_id _ (migrateKeysStep_id mode hc hd) _ _
  · exact foldl_fixed_of_id _ (migrateEssStep_id mode hc) _ _
  · exact foldl_fixed_of_id _ (migrateB64Step_id mode hc) _ _

def subC9 : Submission :=
  ⟨some "en", some "Bob", some "Lee", some "b@l.c", some "1", some "en",
   some "CS", some "ESS", some "Em", some "2", none, some "Bob Lee",
   some "data:image/png;base64,QUJD", none, none⟩

def kvC9 : KV :=
  [("email_b_l_c_1700000000000", .plain "bob_lee_1700000000000"),
   ("bob_lee_1700000000000", .record ⟨subC9, none⟩)]

def r2C9 : R2 := [("keep.png", ⟨"QUJD"⟩)]

/-- Witness for C9: a dry run of each migration endpoint on a concrete store
with an index entry and an inline-signature record leaves both stores
untouched and issues no operations. -/
theorem migrations_noncommit_pure_witness :
    (("dry-run" : String) ≠ "commit" ∧ ("dry-run" : String) ≠ "delete") ∧
    migrateKeys "dry-run" kvC9 r2C9 = ⟨kvC9, r2C9, []⟩ ∧
    migrateEss "dry-run" kvC9 r2C9 = ⟨kvC9, r2C9, []⟩ ∧
    migrateB64 "dry-run" kvC9 r2C9 = ⟨kvC9, r2C9, []⟩ :=
  ⟨⟨by decide, by decide⟩,
    (migrations_noncommit_pure "dry-run" kvC9 r2C9 (by decide)).1 (by decide),
    (migrations_noncommit_pure "dry-run" kvC9 r2C9 (by decide)).2.1,
    (migrations_noncommit_pure "dry-run" kvC9 r2C9 (by decide)).2.2.1⟩

def StoreOp.isKvWrite : StoreOp → Bool
  | .kvPut _ _ => true
  | _ => false

theorem lookup_ops_are_deletes (input : Option String) (kv : KV) :
    ∀ op ∈ (handleLookup input kv).ops, StoreOp.isKvWrite op = false := by
  intro op hmem
  unfold handleLookup at hmem
  cases input with
  | none => simp at hmem
  | some s =>
    simp only [] at hmem
    by_cases hs : s = ""
    · simp [hs] at hmem
    · rw [if_neg hs] at hmem
      by_cases he : emailRegexMatch s = true
      · simp only [he, if_true, ite_true] at hmem
        simp only [List.mem_map] at hmem
        obtain ⟨a, _, rfl⟩ := hmem
        rfl
      · simp only [he, Bool.false_eq_true, if_false, ite_false] at hmem
        cases hsp : splitWords (trimList s.data) with
        | nil => rw [hsp] at hmem; simp at hmem
        | cons p0 t =>
          cases t with
          | nil => rw [hsp] at hmem; simp at hmem
          | cons p1 t2 =>
            cases t2 with
            | nil => rw [hsp] at hmem; simp at hmem
            | cons p2 t3 => rw [hsp] at hmem; simp at hmem

theorem formpost_puts_only_derived (sub : Submission) (today : SimpleDate) (ts : Nat)
    (kv : KV) (r2 : R2) (k : String) (v : KVValue)
    (hmem : StoreOp.kvPut k v ∈ (handleFormPost sub today ts kv r2).ops) :
    k = "email_" ++ sanitize (sub.email.getD "") ++ "_" ++ Nat.repr ts ∨
    k = sanitize (sub.firstName.getD "") ++ "_" ++ sanitize (sub.lastName.getD "") ++
        "_" ++ Nat.repr ts := by
  unfold handleFormPost at hmem
  cases hv : validateSubmission sub today with
  | some r => rw [hv] at hmem; simp at hmem
  | none =>
    rw [hv] at hmem
    simp only [] at hmem
    unfold persistSubmission at hmem
    by_cases hp : isPngDataUrl sub.signatureParticipant = true <;>
      by_cases hq : isPngDataUrl sub.signatureParent = true <;>
      simp only [hp, hq, if_true, if_false, Bool.false_eq_true, ite_true,
        ite_false] at hmem
    · split at hmem
      · simp at hmem; tauto
      · split at hmem
        · simp at hmem; tauto
        · simp at hmem; tauto
    · split at hmem
      · simp at hmem; tauto
      · simp at hmem; tauto
    · split at hmem
      · simp at hmem; tauto
      · simp at hmem; tauto
    · simp at hmem; tauto

/-- C6 (amended): stored submission records have no lifecycle beyond
create/read/delete outside the administrative migration endpoints: the lookup
handler never writes a KV value (its only mutations are orphan-index deletes)
and a form-post puts only its two freshly derived keys.  The
migrate-base64-to-r2 endpoint in commit mode, however, rewrites an existing
submission record in place under its existing key (see the counterexample
theorem). -/
theorem records_create_read_delete_outside_migrations
    (input : Option String) (kv : KV) (sub : Submission) (today : SimpleDate)
    (ts : Nat) (kv2 : KV) (r2 : R2) :
    (∀ op ∈ (handleLookup input kv).ops, StoreOp.isKvWrite op = false) ∧
    (∀ k v, StoreOp.kvPut k v ∈ (handleFormPost sub today ts kv2 r2).ops →
      k = "email_" ++ sanitize (sub.email.getD "") ++ "_" ++ Nat.repr ts ∨
      k = sanitize (sub.firstName.getD "") ++ "_" ++ sanitize (sub.lastName.getD "") ++
          "_" ++ Nat.repr ts) :=
  ⟨lookup_ops_are_deletes input kv,
    fun k v hmem => formpost_puts_only_derived sub today ts kv2 r2 k v hmem⟩

def subC6w : Submission :=
  ⟨some "en", some "Ann", some "Li", some "a@l.c", some "1", some "en",
   some "CS", some "ESS", some "Em", some "2", none, some "Ann Li",
   some "sig", none, none⟩

/-- Witness for the amended C6: the index put of a concrete accepted
submission targets one of the two derived keys. -/
theorem records_create_read_delete_witness :
    StoreOp.kvPut "email_a_l_c_5" (.plain "ann_li_5") ∈
      (handleFormPost subC6w ⟨2025, 6, 1⟩ 5 [] []).ops ∧
    ("email_a_l_c_5" = "email_" ++ sanitize (subC6w.email.getD "") ++ "_" ++ Nat.repr 5 ∨
      "email_a_l_c_5" = sanitize (subC6w.firstName.getD "") ++ "_" ++
        sanitize (subC6w.lastName.getD "") ++ "_" ++ Nat.repr 5) :=
  ⟨by decide,
    (records_create_read_delete_outside_migrations none [] subC6w ⟨2025, 6, 1⟩ 5 [] []).2
      "email_a_l_c_5" (.plain "ann_li_5") (by decide)⟩

def subC6 : Submission :=
  ⟨some "en", some "Bob", some "Ng", some "b@n.c", some "1", some "en",
   some "CS", some "ESS", some "Em", some "2", none, some "Bob Ng",
   some "data:image/png;base64,QUJD", none, none⟩

def subC6after : Submission :=
  ⟨some "en", some "Bob", some "Ng", some "b@n.c", some "1", some "en",
   some "CS", some "ESS", some "Em", some "2", none, some "Bob Ng",
   none, none, none⟩

def kvC6 : KV := [("bob_ng_1700000000000", .record ⟨subC6, none⟩)]

/-- Counterexample for C6 as stated: the migrate-base64-to-r2 endpoint in
commit mode issues a KV put on a key that already exists, rewriting that
stored submission record in place — a lifecycle step beyond
create/read/delete. -/
theorem migrate_b64_overwrites_existing_key :
    (kvGet kvC6 "bob_ng_1700000000000").isSome = true ∧
    StoreOp.kvPut "bob_ng_1700000000000"
        (.record ⟨subC6after, some ⟨some "bob_ng_1700000000000_participant.png", none⟩⟩)
      ∈ (migrateB64 "commit" kvC6 []).ops ∧
    kvGet (migrateB64 "commit" kvC6 []).kv "bob_ng_1700000000000" ≠
      kvGet kvC6 "bob_ng_1700000000000" := by decide

theorem fetchValidRecords_sound (keys : List String) (kv : KV) (k : String)
    (r : RecordObj) (hmem : (k, r) ∈ fetchValidRecords keys kv) :
    k ∈ keys ∧ kvGet kv k = some (.record r) ∧ isValidLookupData r = true := by
  unfold fetchValidRecords at hmem
  rw [List.mem_filterMap] at hmem
  obtain ⟨a, ha, hfa⟩ := hmem
  have hak : a ∈ keys := List.mem_of_mem_take ha
  cases hg : kvGet kv a with
  | none => rw [hg] at hfa; simp at hfa
  | some w =>
    rw [hg] at hfa
    cases w with
    | plain s => simp at hfa
    | nonObject s => simp at hfa
    | record q =>
      simp only [] at hfa
      by_cases hval : isValidLookupData q = true
      · rw [if_pos hval] at hfa
        have hpair : (a, q) = (k, r) := Option.some.inj hfa
        have hak2 : a = k := congrArg Prod.fst hpair
        have hqr : q = r := congrArg Prod.snd hpair
        subst hak2; subst hqr
        exact ⟨hak, hg, hval⟩
      · rw [if_neg hval] at hfa; simp at hfa

theorem emailValidMainKeys_sound (kv : KV) (pre mk : String)
    (hmem : mk ∈ emailValidMainKeys kv pre) :
    ∃ ik v, ik ∈ kvKeysWith kv pre ∧ kvGet kv ik = some v ∧ v.asString = mk := by
  unfold emailValidMainKeys at hmem
  rw [List.mem_filterMap] at hmem
  obtain ⟨ik, hik, hfa⟩ := hmem
  cases hg : kvGet kv ik with
  | none => rw [hg] at hfa; simp at hfa
  | some v =>
    rw [hg] at hfa
    simp only [] at hfa
    by_cases hs : (kvGet kv v.asString).isSome = true
    · rw [if_pos hs] at hfa
      have h := Option.some.inj hfa
      subst h
      exact ⟨ik, v, hik, hg, rfl⟩
    · rw [if_neg hs] at hfa; simp at hfa

/-- C5: handleLookup's algorithm — a missing input parameter yields 400; an
email-shaped input is sanitized and resolved through index keys with prefix
`email_<sanitized>_`, each index value naming a main-record key present in the
store; any other input must split into exactly two words (else 400), which are
sanitized into the name-key listing prefix; and only values parsing to JSON
objects carrying every required field are returned. -/
theorem handleLookup_spec (input : Option String) (kv : KV) :
    (input = none →
      handleLookup input kv = ⟨.err 400 "Missing 'input' query parameter", kv, []⟩) ∧
    (∀ s, input = some s → s ≠ "" → emailRegexMatch s = true →
      ∃ results, (handleLookup input kv).response = .ok results ∧
        ∀ k r, (k, r) ∈ results →
          isValidLookupData r = true ∧ kvGet kv k = some (.record r) ∧
          ∃ ik v, ik ∈ kvKeysWith kv ("email_" ++ sanitize s ++ "_") ∧
            kvGet kv ik = some v ∧ v.asString = k) ∧
    (∀ s, input = some s → s ≠ "" → emailRegexMatch s = false →
      (splitWords (trimList s.data)).length ≠ 2 →
      handleLookup input kv =
        ⟨.err 400 "Input must be a valid email or full name", kv, []⟩) ∧
    (∀ s p0 p1, input = some s → s ≠ "" → emailRegexMatch s = false →
      splitWords (trimList s.data) = [p0, p1] →
      ∃ results, (handleLookup input kv).response = .ok results ∧
        ∀ k r, (k, r) ∈ results →
          isValidLookupData r = true ∧ kvGet kv k = some (.record r) ∧
          (sanitize ⟨p0⟩ ++ "_" ++ sanitize ⟨p1⟩ ++ "_").data.isPrefixOf k.data = true) := by
  refine ⟨?_, ?_, ?_, ?_⟩
  · rintro rfl; rfl
  · rintro s rfl hs0 he
    unfold handleLookup
    simp only []
    rw [if_neg hs0, if_pos he]
    refine ⟨_, rfl, ?_⟩
    intro k r hkr
    obtain ⟨hk1, hk2, hk3⟩ := fetchValidRecords_sound _ kv k r hkr
    obtain ⟨ik, v, hik, hgv, hvs⟩ := emailValidMainKeys_sound kv _ k hk1
    exact ⟨hk3, hk2, ik, v, hik, hgv, hvs⟩
  · rintro s rfl hs0 he hlen
    unfold handleLookup
    simp only []
    rw [if_neg hs0, if_neg (by simp [he])]
    cases hsp : splitWords (trimList s.data) with
    | nil => rfl
    | cons p0 t =>
      cases t with
      | nil => rfl
      | cons p1 t2 =>
        cases t2 with
        | nil => rw [hsp] at hlen; simp at hlen
        | cons p2 t3 => rfl
  · rintro s p0 p1 rfl hs0 he hsp
    unfold handleLookup
    simp only []
    rw [if_neg hs0, if_neg (by simp [he]), hsp]
    refine ⟨_, rfl, ?_⟩
    intro k r hkr
    obtain ⟨hk1, hk2, hk3⟩ := fetchValidRecords_sound _ kv k r hkr
    have hpref := (List.mem_filter.mp hk1).2
    exact ⟨hk3, hk2, hpref⟩

def subC5 : Submission :=
  ⟨some "en", some "Jo", some "Wu", some "j@w.c", some "1", some "en",
   some "CS", some "ESS", some "Em", some "2", none, some "Jo Wu",
   none, none, none⟩

def kvC5 : KV :=
  [("email_j_w_c_7", .plain "jo_wu_7"), ("jo_wu_7", .record ⟨subC5, none⟩)]

/-- Witness for C5: the email branch of a concrete lookup resolves through the
index and returns only valid records from the store. -/
theorem handleLookup_spec_witness :
    ∃ results, (handleLookup (some "j@w.c") kvC5).response = .ok results ∧
      ∀ k r, (k, r) ∈ results →
        isValidLookupData r = true ∧ kvGet kvC5 k = some (.record r) ∧
        ∃ ik v, ik ∈ kvKeysWith kvC5 ("email_" ++ sanitize "j@w.c" ++ "_") ∧
          kvGet kvC5 ik = some v ∧ v.asString = k :=
  (handleLookup_spec (some "j@w.c") kvC5).2.1 "j@w.c" rfl (by decide) (by decide)

/-! ## An oversized signature payload, kept symbolic as a replicated list so
that no proof ever evaluates it element by element -/

def hugePayloadChars : List Char := List.replicate 1398102 'A'

def hugeSig : String := ⟨pngHeader.data ++ hugePayloadChars⟩

theorem hugeSig_ne_empty : hugeSig ≠ "" := by
  intro h
  have h2 : hugeSig.data = [] := congrArg String.data h
  have h3 : hugeSig.data = 'd' :: ("ata:image/png;base64,".data ++ hugePayloadChars) := rfl
  rw [h3] at h2
  exact List.cons_ne_nil _ _ h2

theorem trim_cons_not_empty (c : Char) (t : List Char) (hc : jsWhitespace c = false) :
    (trimList (c :: t)).isEmpty = false := by
  unfold trimList
  rw [List.dropWhile_cons, if_neg (by simp [hc])]
  rw [List.isEmpty_eq_false, Ne, List.reverse_eq_nil_iff, List.dropWhile_eq_nil_iff]
  intro hall
  have hmem : c ∈ (c :: t).reverse := by simp
  have := hall c hmem
  rw [hc] at this
  exact Bool.false_ne_true this

theorem missingOrBlank_hugeSig : missingOrBlank (some hugeSig) = false := by
  unfold missingOrBlank
  simp only []
  rw [decide_eq_false hugeSig_ne_empty, Bool.false_or]
  have h3 : hugeSig.data = 'd' :: ("ata:image/png;base64,".data ++ hugePayloadChars) := rfl
  rw [h3]
  exact trim_cons_not_empty _ _ (by decide)

theorem isPngDataUrl_hugeSig : isPngDataUrl (some hugeSig) = true := by
  unfold isPngDataUrl
  simp only []
  rw [decide_eq_true hugeSig_ne_empty, Bool.true_and]
  have h3 : hugeSig.data = pngHeader.data ++ hugePayloadChars := rfl
  rw [h3]
  exact isPrefixOf_self_append _ _

theorem pngPayload_hugeSig : pngPayload hugeSig = ⟨hugePayloadChars⟩ := by
  unfold pngPayload
  have h3 : hugeSig.data = pngHeader.data ++ hugePayloadChars := rfl
  rw [h3, List.drop_left]

theorem oversize_hugeSig : oversize (pngPayload hugeSig) = true := by
  rw [pngPayload_hugeSig]
  unfold oversize
  have hlen : (String.mk hugePayloadChars).data.length = 1398102 := by
    show hugePayloadChars.length = 1398102
    unfold hugePayloadChars
    rw [List.length_replicate]
  rw [hlen]
  decide

def subC4 : Submission :=
  ⟨some "en", some "Ann", some "Lee", some "x@y.z", some "1", some "en",
   some "CS", some "ESS", some "Em", some "2", none, some "Ann Lee",
   some hugeSig, none, some "data:image/png;base64,QkJC"⟩

theorem findMissing_two (sub : Submission) (f1 f2 : FieldName)
    (h1 : missingOrBlank (getField sub f1) = false)
    (h2 : missingOrBlank (getField sub f2) = false) :
    findMissing sub [f1, f2] = none := by
  unfold findMissing
  simp only [List.find?, h1, h2]

theorem validate_subC4 : validateSubmission subC4 ⟨2025, 1, 1⟩ = none := by
  have h1 : checkRequired subC4 = none := rfl
  have h2 : checkEmailFormat subC4 = none := rfl
  have h3 : checkFutureDob subC4 ⟨2025, 1, 1⟩ = none := rfl
  have h4 : checkConditionalFields subC4 ⟨2025, 1, 1⟩ = none := by
    unfold checkConditionalFields
    rw [if_pos (show isAdultCheck subC4 ⟨2025, 1, 1⟩ = true from rfl)]
    rw [show participantFields =
      [FieldName.fullNameParticipant, FieldName.signatureParticipant] from rfl]
    exact findMissing_two subC4 .fullNameParticipant .signatureParticipant rfl
      missingOrBlank_hugeSig
  simp only [validateSubmission, h1, h2, h3, h4]

/-- A run rejected at the participant size check: both KV writes have
happened, the stores carry them, and no R2 operation was issued. -/
theorem participant_oversize_run (sub : Submission) (today : SimpleDate)
    (ts : Nat) (kv : KV) (r2 : R2)
    (hv : validateSubmission sub today = none)
    (hp : isPngDataUrl sub.signatureParticipant = true)
    (hov : oversize (pngPayload (sub.signatureParticipant.getD "")) = true) :
    ∃ rec : RecordObj,
      handleFormPost sub today ts kv r2 =
        ⟨.reject 400 "Participant signature image too large",
          kvPutStore
            (kvPutStore kv
              ("email_" ++ sanitize (sub.email.getD "") ++ "_" ++ Nat.repr ts)
              (.plain (sanitize (sub.firstName.getD "") ++ "_" ++
                sanitize (sub.lastName.getD "") ++ "_" ++ Nat.repr ts)))
            (sanitize (sub.firstName.getD "") ++ "_" ++
              sanitize (sub.lastName.getD "") ++ "_" ++ Nat.repr ts)
            (.record rec),
          r2,
          [.kvPut ("email_" ++ sanitize (sub.email.getD "") ++ "_" ++ Nat.repr ts)
              (.plain (sanitize (sub.firstName.getD "") ++ "_" ++
                sanitize (sub.lastName.getD "") ++ "_" ++ Nat.repr ts)),
            .kvPut (sanitize (sub.firstName.getD "") ++ "_" ++
                sanitize (sub.lastName.getD "") ++ "_" ++ Nat.repr ts)
              (.record rec)]⟩ := by
  unfold handleFormPost
  rw [hv]
  unfold persistSubmission
  simp only [hp, if_true, ite_true]
  rw [if_pos hov]
  exact ⟨_, rfl⟩

/-- Counterexample for C4 as stated: with an oversized participant PNG and a
well-formed parent PNG under the size limit, the request is rejected at the
participant check and the parent signature, though within the limit, is never
uploaded to blob storage. -/
theorem oversize_participant_blocks_valid_parent_upload :
    isPngDataUrl subC4.signatureParent = true ∧
    oversize (pngPayload (subC4.signatureParent.getD "")) = false ∧
    (handleFormPost subC4 ⟨2025, 1, 1⟩ 5 [] []).result =
      .reject 400 "Participant signature image too large" ∧
    (handleFormPost subC4 ⟨2025, 1, 1⟩ 5 [] []).r2 = [] := by
  obtain ⟨rec, hrun⟩ := participant_oversize_run subC4 ⟨2025, 1, 1⟩ 5 [] []
    validate_subC4 isPngDataUrl_hugeSig
    (oversize_hugeSig : oversize (pngPayload (subC4.signatureParticipant.getD "")) = true)
  refine ⟨by decide, by decide, ?_, ?_⟩ <;> rw [hrun]

theorem parent_path_ne (kk : String) :
    kk ++ "_parent.png" ≠ kk ++ "_participant.png" := by
  intro h
  have h3 := congrArg String.data h
  rw [String.data_append, String.data_append] at h3
  exact absurd (List.append_cancel_left h3) (by decide)

/-- C4 (amended): handleFormPost enforces the per-signature size limit — an
oversized participant PNG is rejected with nothing uploaded; a within-limit
participant PNG is uploaded under its derived path; an oversized parent PNG
(when the participant did not already cause rejection) is rejected without
its upload; a within-limit parent PNG is uploaded — except that a
within-limit parent PNG is NOT uploaded when the handler already returned 400
for an oversized participant signature, which is checked first. -/
theorem signature_size_enforcement (sub : Submission) (today : SimpleDate)
    (ts : Nat) (kv : KV) (r2 : R2)
    (hv : validateSubmission sub today = none) :
    (isPngDataUrl sub.signatureParticipant = true →
      oversize (pngPayload (sub.signatureParticipant.getD "")) = true →
      (handleFormPost sub today ts kv r2).result =
        .reject 400 "Participant signature image too large" ∧
      ∀ p o, StoreOp.r2Put p o ∉ (handleFormPost sub today ts kv r2).ops) ∧
    (isPngDataUrl sub.signatureParticipant = true →
      oversize (pngPayload (sub.signatureParticipant.getD "")) = false →
      StoreOp.r2Put
          (sanitize (sub.firstName.getD "") ++ "_" ++ sanitize (sub.lastName.getD "") ++
            "_" ++ Nat.repr ts ++ "_participant.png")
          ⟨pngPayload (sub.signatureParticipant.getD "")⟩
        ∈ (handleFormPost sub today ts kv r2).ops) ∧
    (isPngDataUrl sub.signatureParent = true →
      oversize (pngPayload (sub.signatureParent.getD "")) = true →
      (isPngDataUrl sub.signatureParticipant = false ∨
        oversize (pngPayload (sub.signatureParticipant.getD "")) = false) →
      (handleFormPost sub today ts kv r2).result =
        .reject 400 "Parent signature image too large" ∧
      ∀ o, StoreOp.r2Put
          (sanitize (sub.firstName.getD "") ++ "_" ++ sanitize (sub.lastName.getD "") ++
            "_" ++ Nat.repr ts ++ "_parent.png") o
        ∉ (handleFormPost sub today ts kv r2).ops) ∧
    (isPngDataUrl sub.signatureParent = true →
      oversize (pngPayload (sub.signatureParent.getD "")) = false →
      (isPngDataUrl sub.signatureParticipant = false ∨
        oversize (pngPayload (sub.signatureParticipant.getD "")) = false) →
      StoreOp.r2Put
          (sanitize (sub.firstName.getD "") ++ "_" ++ sanitize (sub.lastName.getD "") ++
            "_" ++ Nat.repr ts ++ "_parent.png")
          ⟨pngPayload (sub.signatureParent.getD "")⟩
        ∈ (handleFormPost sub today ts kv r2).ops) ∧
    (isPngDataUrl sub.signatureParent = true →
      oversize (pngPayload (sub.signatureParent.getD "")) = false →
      isPngDataUrl sub.signatureParticipant = true →
      oversize (pngPayload (sub.signatureParticipant.getD "")) = true →
      ∀ o, StoreOp.r2Put
          (sanitize (sub.firstName.getD "") ++ "_" ++ sanitize (sub.lastName.getD "") ++
            "_" ++ Nat.repr ts ++ "_parent.png") o
        ∉ (handleFormPost sub today ts kv r2).ops) := by
  refine ⟨?_, ?_, ?_, ?_, ?_⟩
  · intro hp hov
    obtain ⟨rec, hrun⟩ := participant_oversize_run sub today ts kv r2 hv hp hov
    rw [hrun]
    exact ⟨rfl, by intro p o hmem; simp at hmem⟩
  · intro hp hun
    unfold handleFormPost
    rw [hv]
    unfold persistSubmission
    simp only [hp, if_true, ite_true]
    rw [if_neg (by simp [hun])]
    by_cases hq : isPngDataUrl sub.signatureParent = true
    · simp only [hq, if_true, ite_true]
      by_cases hoq : oversize (pngPayload (sub.signatureParent.getD "")) = true
      · rw [if_pos hoq]; simp
      · rw [if_neg hoq]; simp
    · have hqf : isPngDataUrl sub.signatureParent = false := by
        cases hb : isPngDataUrl sub.signatureParent
        · rfl
        · exact absurd hb hq
      simp only [hqf, Bool.false_eq_true, if_false, ite_false]
      simp
  · intro hq hoq hdis
    unfold handleFormPost
    rw [hv]
    unfold persistSubmission
    by_cases hp2 : isPngDataUrl sub.signatureParticipant = true
    · have hpf : oversize (pngPayload (sub.signatureParticipant.getD "")) = false := by
        rcases hdis with h | h
        · rw [hp2] at h; exact absurd h (by simp)
        · exact h
      simp only [hp2, hq, if_true, ite_true]
      rw [if_neg (by simp [hpf]), if_pos hoq]
      refine ⟨rfl, ?_⟩
      intro o hmem
      simp [parent_path_ne] at hmem
    · have hpf : isPngDataUrl sub.signatureParticipant = false := by
        cases hb : isPngDataUrl sub.signatureParticipant
        · rfl
        · exact absurd hb hp2
      simp only [hpf, hq, Bool.false_eq_true, if_false, ite_false, if_true, ite_true]
      rw [if_pos hoq]
      refine ⟨rfl, ?_⟩
      intro o hmem
      simp at hmem
  · intro hq hqf hdis
    unfold handleFormPost
    rw [hv]
    unfold persistSubmission
    by_cases hp2 : isPngDataUrl sub.signatureParticipant = true
    · have hpf : oversize (pngPayload (sub.signatureParticipant.getD "")) = false := by
        rcases hdis with h | h
        · rw [hp2] at h; exact absurd h (by simp)
        · exact h
      simp only [hp2, hq, if_true, ite_true]
      rw [if_neg (by simp [hpf]), if_neg (by simp [hqf])]
      simp
    · have hpf : isPngDataUrl sub.signatureParticipant = false := by
        cases hb : isPngDataUrl sub.signatureParticipant
        · rfl
        · exact absurd hb hp2
      simp only [hpf, hq, Bool.false_eq_true, if_false, ite_false, if_true, ite_true]
      rw [if_neg (by simp [hqf])]
      simp
  · intro hq hqf hp hov
    obtain ⟨rec, hrun⟩ := participant_oversize_run sub today ts kv r2 hv hp hov
    rw [hrun]
    intro o hmem
    simp at hmem

def subC4w : Submission :=
  ⟨some "en", some "Ben", some "Orr", some "b@o.c", some "1", some "en",
   some "CS", some "ESS", some "Em", some "2", none, some "Ben Orr",
   some "data:image/png;base64,QUFB", none, none⟩

/-- Witness for the amended C4: a concrete within-limit participant PNG is
uploaded under its derived path. -/
theorem signature_size_enforcement_witness :
    (validateSubmission subC4w ⟨2025, 6, 1⟩ = none ∧
      isPngDataUrl subC4w.signatureParticipant = true ∧
      oversize (pngPayload (subC4w.signatureParticipant.getD "")) = false) ∧
    StoreOp.r2Put
        (sanitize (subC4w.firstName.getD "") ++ "_" ++ sanitize (subC4w.lastName.getD "") ++
          "_" ++ Nat.repr 9 ++ "_participant.png")
        ⟨pngPayload (subC4w.signatureParticipant.getD "")⟩
      ∈ (handleFormPost subC4w ⟨2025, 6, 1⟩ 9 [] []).ops :=
  ⟨⟨by decide, by decide, by decide⟩,
    (signature_size_enforcement subC4w ⟨2025, 6, 1⟩ 9 [] [] (by decide)).2.1
      (by decide) (by decide)⟩

theorem kvGet_put2_isSome (kv : KV) (k1 k2 : String) (v1 v2 : KVValue) :
    (kvGet (kvPutStore (kvPutStore kv k1 v1) k2 v2) k1).isSome = true ∧
    (kvGet (kvPutStore (kvPutStore kv k1 v1) k2 v2) k2).isSome = true := by
  constructor
  · by_cases h : k1 = k2
    · subst h; rw [kvGet_put_self]; rfl
    · rw [kvGet_put_other _ _ _ _ h, kvGet_put_self]; rfl
  · rw [kvGet_put_self]; rfl

/-- A run rejected at the parent size check when the participant signature did
not already cause rejection: both KV writes happened. -/
theorem parent_oversize_run (sub : Submission) (today : SimpleDate) (ts : Nat)
    (kv : KV) (r2 : R2)
    (hv : validateSubmission sub today = none)
    (hq : isPngDataUrl sub.signatureParent = true)
    (hoq : oversize (pngPayload (sub.signatureParent.getD "")) = true)
    (hnp : isPngDataUrl sub.signatureParticipant = false ∨
      oversize (pngPayload (sub.signatureParticipant.getD "")) = false) :
    ∃ (rec : RecordObj) (r2b : R2) (rest : List StoreOp),
      handleFormPost sub today ts kv r2 =
        ⟨.reject 400 "Parent signature image too large",
          kvPutStore
            (kvPutStore kv
              ("email_" ++ sanitize (sub.email.getD "") ++ "_" ++ Nat.repr ts)
              (.plain (sanitize (sub.firstName.getD "") ++ "_" ++
                sanitize (sub.lastName.getD "") ++ "_" ++ Nat.repr ts)))
            (sanitize (sub.firstName.getD "") ++ "_" ++
              sanitize (sub.lastName.getD "") ++ "_" ++ Nat.repr ts)
            (.record rec),
          r2b,
          .kvPut ("email_" ++ sanitize (sub.email.getD "") ++ "_" ++ Nat.repr ts)
              (.plain (sanitize (sub.firstName.getD "") ++ "_" ++
                sanitize (sub.lastName.getD "") ++ "_" ++ Nat.repr ts)) ::
            .kvPut (sanitize (sub.firstName.getD "") ++ "_" ++
                sanitize (sub.lastName.getD "") ++ "_" ++ Nat.repr ts)
              (.record rec) :: rest⟩ := by
  unfold handleFormPost
  rw [hv]
  unfold persistSubmission
  by_cases hp2 : isPngDataUrl sub.signatureParticipant = true
  · have hpf : oversize (pngPayload (sub.signatureParticipant.getD "")) = false := by
      rcases hnp with h | h
      · rw [hp2] at h; exact absurd h (by simp)
      · exact h
    simp only [hp2, hq, if_true, ite_true]
    rw [if_neg (by simp [hpf]), if_pos hoq]
    exact ⟨_, _, _, rfl⟩
  · have hpf : isPngDataUrl sub.signatureParticipant = false := by
      cases hb : isPngDataUrl sub.signatureParticipant
      · rfl
      · exact absurd hb hp2
    simp only [hpf, hq, Bool.false_eq_true, if_false, ite_false, if_true, ite_true]
    rw [if_pos hoq]
    exact ⟨_, _, _, rfl⟩

/-- C10: the rejection of an oversized signature is not atomic — whenever a
submission passes all field validation and its participant or parent
signature is a PNG data URL whose decoded size estimate exceeds the limit,
the handler returns 400 only after the email index entry and the main record
were written, and the final KV store still carries both keys. -/
theorem oversize_rejection_after_kv_writes (sub : Submission) (today : SimpleDate)
    (ts : Nat) (kv : KV) (r2 : R2)
    (hv : validateSubmission sub today = none)
    (hover : (isPngDataUrl sub.signatureParticipant = true ∧
        oversize (pngPayload (sub.signatureParticipant.getD "")) = true) ∨
      (isPngDataUrl sub.signatureParent = true ∧
        oversize (pngPayload (sub.signatureParent.getD "")) = true)) :
    ∃ (body : String) (rec : RecordObj) (rest : List StoreOp),
      (handleFormPost sub today ts kv r2).result = .reject 400 body ∧
      (handleFormPost sub today ts kv r2).ops =
        .kvPut ("email_" ++ sanitize (sub.email.getD "") ++ "_" ++ Nat.repr ts)
            (.plain (sanitize (sub.firstName.getD "") ++ "_" ++
              sanitize (sub.lastName.getD "") ++ "_" ++ Nat.repr ts)) ::
          .kvPut (sanitize (sub.firstName.getD "") ++ "_" ++
              sanitize (sub.lastName.getD "") ++ "_" ++ Nat.repr ts)
            (.record rec) :: rest ∧
      (kvGet (handleFormPost sub today ts kv r2).kv
        ("email_" ++ sanitize (sub.email.getD "") ++ "_" ++ Nat.repr ts)).isSome = true ∧
      (kvGet (handleFormPost sub today ts kv r2).kv
        (sanitize (sub.firstName.getD "") ++ "_" ++
          sanitize (sub.lastName.getD "") ++ "_" ++ Nat.repr ts)).isSome = true := by
  by_cases hpo : isPngDataUrl sub.signatureParticipant = true ∧
      oversize (pngPayload (sub.signatureParticipant.getD "")) = true
  · obtain ⟨rec, hrun⟩ := participant_oversize_run sub today ts kv r2 hv hpo.1 hpo.2
    refine ⟨"Participant signature image too large", rec, [], ?_, ?_, ?_, ?_⟩ <;>
      rw [hrun]
    · exact (kvGet_put2_isSome kv _ _ _ _).1
    · exact (kvGet_put2_isSome kv _ _ _ _).2
  · have hq : isPngDataUrl sub.signatureParent = true ∧
        oversize (pngPayload (sub.signatureParent.getD "")) = true := by
      rcases hover with h | h
      · exact absurd h hpo
      · exact h
    have hnp : isPngDataUrl sub.signatureParticipant = false ∨
        oversize (pngPayload (sub.signatureParticipant.getD "")) = false := by
      by_cases h1 : isPngDataUrl sub.signatureParticipant = true
      · right
        cases hb : oversize (pngPayload (sub.signatureParticipant.getD ""))
        · rfl
        · exact absurd ⟨h1, hb⟩ hpo
      · left
        cases hb : isPngDataUrl sub.signatureParticipant
        · rfl
        · exact absurd hb h1
    obtain ⟨rec, r2b, rest, hrun⟩ :=
      parent_oversize_run sub today ts kv r2 hv hq.1 hq.2 hnp
    refine ⟨"Parent signature image too large", rec, rest, ?_, ?_, ?_, ?_⟩ <;>
      rw [hrun]
    · exact (kvGet_put2_isSome kv _ _ _ _).1
    · exact (kvGet_put2_isSome kv _ _ _ _).2

def subC10 : Submission :=
  ⟨some "en", some "Cy", some "Ode", some "c@o.d", some "1", some "en",
   some "CS", some "ESS", some "Em", some "2", none, some "Cy Ode",
   some "typed", none, some hugeSig⟩

/-- Witness for C10: a concrete valid submission with an oversized parent PNG
is rejected with 400 while both derived keys are present in the final KV
store and head the operation trace. -/
theorem oversize_rejection_after_kv_writes_witness :
    validateSubmission subC10 ⟨2025, 6, 1⟩ = none ∧
    ∃ (body : String) (rec : RecordObj) (rest : List StoreOp),
      (handleFormPost subC10 ⟨2025, 6, 1⟩ 3 [] []).result = .reject 400 body ∧
      (handleFormPost subC10 ⟨2025, 6, 1⟩ 3 [] []).ops =
        .kvPut ("email_" ++ sanitize (subC10.email.getD "") ++ "_" ++ Nat.repr 3)
            (.plain (sanitize (subC10.firstName.getD "") ++ "_" ++
              sanitize (subC10.lastName.getD "") ++ "_" ++ Nat.repr 3)) ::
          .kvPut (sanitize (subC10.firstName.getD "") ++ "_" ++
              sanitize (subC10.lastName.getD "") ++ "_" ++ Nat.repr 3)
            (.record rec) :: rest ∧
      (kvGet (handleFormPost subC10 ⟨2025, 6, 1⟩ 3 [] []).kv
        ("email_" ++ sanitize (subC10.email.getD "") ++ "_" ++ Nat.repr 3)).isSome = true ∧
      (kvGet (handleFormPost subC10 ⟨2025, 6, 1⟩ 3 [] []).kv
        (sanitize (subC10.firstName.getD "") ++ "_" ++
          sanitize (subC10.lastName.getD "") ++ "_" ++ Nat.repr 3)).isSome = true :=
  ⟨by decide,
    oversize_rejection_after_kv_writes subC10 ⟨2025, 6, 1⟩ 3 [] [] (by decide)
      (Or.inr ⟨isPngDataUrl_hugeSig, oversize_hugeSig⟩)⟩
